import Mathlib

/-!
# Verification of the GCC option-space discovery subsystem

A shallow embedding of `compiler_gym/envs/gcc/gcc.py`: the `Option` variant
classes, the two help-text parsers (`_gcc_parse_optimize`, `_gcc_parse_params`),
the fixup engine (`_fix_options`), the version fetch (`_gcc_get_version`) and
the discovery entry point (`_get_spec`).

Python strings are `String` (lists of characters), Python `int` is `Int`
(arbitrary precision, as in Python), Python `dict` (insertion ordered, unique
keys) is an insertion-ordered association list, and Python code that can raise
(`assert`, `len()` on a negative `__len__`, raised exceptions) lives in
`Except PyErr`.
-/

/-! ## Python string primitives -/

/-- The six ASCII whitespace characters recognised by `str.split()` /
`str.strip()` (the help text is ASCII). -/
def isWsCh (c : Char) : Bool :=
  c = ' ' || c = '\t' || c = '\n' || c = '\r' || c = '\x0b' || c = '\x0c'

/-- Accumulator-passing worker for `pySplitWs`; the accumulator holds the
current word reversed. -/
def splitWsAux : List Char → List Char → List String
  | [], acc => if acc.isEmpty then [] else [String.mk acc.reverse]
  | c :: rest, acc =>
    if isWsCh c then
      if acc.isEmpty then splitWsAux rest []
      else String.mk acc.reverse :: splitWsAux rest []
    else splitWsAux rest (c :: acc)

/-- Python `str.split()` with no argument: split on whitespace runs,
discarding empty tokens. -/
def pySplitWs (s : String) : List String :=
  splitWsAux s.data []

/-- Python `str.strip()`: remove leading and trailing whitespace. -/
def pyStrip (s : String) : String :=
  String.mk (((s.data.dropWhile isWsCh).reverse.dropWhile isWsCh).reverse)

/-- Worker for `splitLines`. -/
def splitLinesAux : List Char → List Char → List String
  | [], acc => [String.mk acc.reverse]
  | c :: rest, acc =>
    if c = '\n' then String.mk acc.reverse :: splitLinesAux rest []
    else splitLinesAux rest (c :: acc)

/-- Python `str.split("\n")`: split on every newline, keeping empty pieces
(`"".split("\n") == [""]`). -/
def splitLines (s : String) : List String :=
  splitLinesAux s.data []

/-- Worker for `splitPipe`. -/
def splitPipeAux : List Char → List Char → List String
  | [], acc => [String.mk acc.reverse]
  | c :: rest, acc =>
    if c = '|' then String.mk acc.reverse :: splitPipeAux rest []
    else splitPipeAux rest (c :: acc)

/-- Python `str.split("|")` applied to a regex group: split on every pipe,
keeping empty pieces. -/
def splitPipe (cs : List Char) : List String :=
  splitPipeAux cs []

/-- Substring search on character lists: Python's `needle in haystack`. -/
def subOccursIn (needle : List Char) : List Char → Bool
  | [] => needle.isEmpty
  | c :: rest => needle.isPrefixOf (c :: rest) || subOccursIn needle rest

/-- Python `needle in haystack` for strings. -/
def pyContainsSub (haystack needle : String) : Bool :=
  subOccursIn needle.data haystack.data

/-- Lexicographic `≤` on character lists by code point, as Python compares
strings. -/
def charsLe : List Char → List Char → Bool
  | [], _ => true
  | _ :: _, [] => false
  | a :: as, b :: bs =>
    if a.toNat < b.toNat then true
    else if b.toNat < a.toNat then false
    else charsLe as bs

/-- Python string `<=`. -/
def strLe (a b : String) : Bool :=
  charsLe a.data b.data

/-! ## Decimal digits, Python `int(...)` and `str(int)` -/

/-- ASCII decimal digit test (`[0-9]` in the regexes; `int()` on the
whitespace-free tokens produced by `split()`). -/
def isDigitCh (c : Char) : Bool :=
  48 ≤ c.toNat && c.toNat ≤ 57

/-- Value of a digit character. -/
def dval (c : Char) : Nat :=
  c.toNat - 48

/-- Numeric value of a digit string (most significant first). -/
def digitsToNat (cs : List Char) : Nat :=
  cs.foldl (fun a c => 10 * a + dval c) 0

/-- Python `int(s)` on a whitespace-free token, returning `none` when the
token is not an optional-sign decimal numeral (the `ValueError` case). -/
def pyIntParse : String → Option Int
  | ⟨[]⟩ => none
  | ⟨'-' :: rest⟩ =>
    if rest ≠ [] && rest.all isDigitCh then some (-(digitsToNat rest : Int)) else none
  | ⟨'+' :: rest⟩ =>
    if rest ≠ [] && rest.all isDigitCh then some ((digitsToNat rest : Int)) else none
  | ⟨cs⟩ => if cs.all isDigitCh then some ((digitsToNat cs : Int)) else none

/-- The `is_int` helper of `_gcc_parse_params`: `int(s)` succeeds. -/
def is_int (s : String) : Bool :=
  (pyIntParse s).isSome

/-- Python `int(s)` where parsing is known to succeed. -/
def pyInt (s : String) : Int :=
  (pyIntParse s).getD 0

/-- The digit character for `n < 10`. -/
def digitCh : Nat → Char
  | 0 => '0' | 1 => '1' | 2 => '2' | 3 => '3' | 4 => '4'
  | 5 => '5' | 6 => '6' | 7 => '7' | 8 => '8' | _ => '9'

/-- Decimal digits of a natural number, most significant first. -/
def natReprAux (n : Nat) : List Char :=
  if n < 10 then [digitCh n]
  else natReprAux (n / 10) ++ [digitCh (n % 10)]
decreasing_by omega

/-- Python `str(i)` / f-string interpolation of an `int`. -/
def pyIntRepr (i : Int) : String :=
  if i < 0 then String.mk ('-' :: natReprAux i.natAbs)
  else String.mk (natReprAux i.toNat)

/-! ## The Option data model

One constructor per `Option` subclass of the source, carrying exactly the
fields the Python constructors store. -/

/-- The closed set of `Option` variants defined in `gcc.py`. -/
inductive GccOpt where
  /-- `GccOOption`: the `-O` option; `values` are the accumulated suffixes. -/
  | GccOOption (values : List String)
  /-- `GccFlagOption`: an ordinary `-f` flag with fields `name`, `no_fno`. -/
  | GccFlagOption (name : String) (no_fno : Bool)
  /-- `GccFlagEnumOption`: `-f<name>=[v1|v2|...]`. -/
  | GccFlagEnumOption (name : String) (values : List String)
  /-- `GccFlagIntOption`: `-f<name>=<integer>` with bounds. -/
  | GccFlagIntOption (name : String) (min max : Int)
  /-- `GccFlagAlignOption`: an alignment flag, name only. -/
  | GccFlagAlignOption (name : String)
  /-- `GccParamEnumOption`: `--param=<name>=[v1|v2|...]`. -/
  | GccParamEnumOption (name : String) (values : List String)
  /-- `GccParamIntOption`: `--param=<name>=<integer>` with bounds. -/
  | GccParamIntOption (name : String) (min max : Int)
deriving DecidableEq, Repr

open GccOpt

/-- The value computed by each variant's `__len__` (as a Python `int`; the
`len()` protocol additionally rejects negative results, see `pyTruthy`). -/
def pyLen : GccOpt → Int
  | GccOOption values => values.length
  | GccFlagOption _ no_fno => if no_fno then 1 else 2
  | GccFlagEnumOption _ values => values.length
  | GccFlagIntOption _ mn mx => mx - mn + 1
  | GccFlagAlignOption _ => 1
  | GccParamEnumOption _ values => values.length
  | GccParamIntOption _ mn mx => mx - mn + 1

/-- Python list indexing `l[i]`: non-negative indices from the front,
negative indices from the back, `IndexError` (here `none`) otherwise. -/
def pyListGet (l : List String) (i : Int) : Option String :=
  if 0 ≤ i then l.get? i.toNat
  else if 0 ≤ i + l.length then l.get? (i + l.length).toNat
  else none

/-- Each variant's `__getitem__(key)`. `none` models an `IndexError` escaping
from the underlying `values[key]`; the purely formatting variants
(`GccFlagOption`, `GccFlagIntOption`, `GccFlagAlignOption`,
`GccParamIntOption`) never fail, whatever the key. -/
def pyGetItem : GccOpt → Int → Option String
  | GccOOption values, key => (pyListGet values key).map (fun v => "-O" ++ v)
  | GccFlagOption name _, key =>
    some ((if key = 0 then "-f" else "-fno-") ++ name)
  | GccFlagEnumOption name values, key =>
    (pyListGet values key).map (fun v => "-f" ++ name ++ "=" ++ v)
  | GccFlagIntOption name mn _, key => some ("-f" ++ name ++ "=" ++ pyIntRepr (mn + key))
  | GccFlagAlignOption name, _ => some ("-f" ++ name)
  | GccParamEnumOption name values, key =>
    (pyListGet values key).map (fun v => "--param=" ++ name ++ "=" ++ v)
  | GccParamIntOption name mn _, key =>
    some ("--param=" ++ name ++ "=" ++ pyIntRepr (mn + key))

/-- The name identity of an option: the key under which the parsers store it
(`"O"` for the optimization-level option, the `name` field otherwise). -/
def optionName : GccOpt → String
  | GccOOption _ => "O"
  | GccFlagOption name _ => name
  | GccFlagEnumOption name _ => name
  | GccFlagIntOption name _ _ => name
  | GccFlagAlignOption name => name
  | GccParamEnumOption name _ => name
  | GccParamIntOption name _ _ => name

/-- `type(opt) == GccFlagOption`: the exact-type test used by the parser's
supersession asserts. -/
def isFlagOpt : GccOpt → Bool
  | GccFlagOption _ _ => true
  | _ => false

/-- The values lists carried by an option are duplicate-free (trivially true
for the variants that carry no values list). -/
def valuesNodup : GccOpt → Prop
  | GccOOption values => values.Nodup
  | GccFlagEnumOption _ values => values.Nodup
  | GccParamEnumOption _ values => values.Nodup
  | _ => True

instance : DecidablePred valuesNodup := by
  intro o
  cases o <;> simp only [valuesNodup] <;> infer_instance

/-- `GccSpec.size`: the source loops `sz = 1; for option: sz *= len(option)+1`
over Python arbitrary-precision integers. -/
def GccSpec.size (options : List GccOpt) : Int :=
  options.foldl (fun sz option => sz * (pyLen option + 1)) 1

/-! ## The regex patterns as deterministic matchers

Every pattern in the source alternates literal pieces with greedy
one-or-more character-class runs, and in each pattern the character that
follows a run is outside the run's class, so `re.fullmatch` never needs to
backtrack: each pattern is equivalent to "consume the literal, consume the
maximal nonempty class run, repeat, and require the end of the string". -/

/-- Consume an expected literal piece. -/
def dropLit : List Char → List Char → Option (List Char)
  | [], cs => some cs
  | _ :: _, [] => none
  | l :: ls, c :: cs => if c = l then dropLit ls cs else none

/-- Consume the maximal nonempty run of class characters (a greedy `X+`). -/
def span1 (p : Char → Bool) (cs : List Char) : Option (List Char × List Char) :=
  if (cs.takeWhile p).isEmpty then none else some (cs.takeWhile p, cs.dropWhile p)

/-- The class `[a-z]`. -/
def isLowerCh (c : Char) : Bool := 97 ≤ c.toNat && c.toNat ≤ 122

/-- The class `[A-Z]`. -/
def isUpperCh (c : Char) : Bool := 65 ≤ c.toNat && c.toNat ≤ 90

/-- The class `[-a-z0-9]` of optimization flag names. -/
def isFlagCh (c : Char) : Bool := c = '-' || isLowerCh c || isDigitCh c

/-- The class `[-a-z]` of alignment flag name bodies. -/
def isAlignCh (c : Char) : Bool := c = '-' || isLowerCh c

/-- The class `[-A-Za-z_|]` of enum value group bodies. -/
def isEnumCh (c : Char) : Bool := c = '-' || isUpperCh c || isLowerCh c || c = '_' || c = '|'

/-- The class `[-a-zA-Z0-9]` of parameter names. -/
def isParamCh (c : Char) : Bool := c = '-' || isLowerCh c || isUpperCh c || isDigitCh c

/-- `O_pat = re.compile("-O([a-z]+)")`, fullmatched; returns the suffix. -/
def O_fullmatch (s : String) : Option String := do
  let r ← dropLit "-O".data s.data
  let (tk, r) ← span1 isLowerCh r
  if r.isEmpty then some (String.mk tk) else none

/-- `flag_align_eq_pat = re.compile("-f(align-[-a-z]+)=")`, fullmatched;
returns group 1 (which includes the `align-` prefix). -/
def flag_align_eq_fullmatch (s : String) : Option String := do
  let r ← dropLit "-falign-".data s.data
  let (tk, r) ← span1 isAlignCh r
  let r ← dropLit "=".data r
  if r.isEmpty then some (String.mk ("align-".data ++ tk)) else none

/-- `flag_pat = re.compile("-f([-a-z0-9]+)")`, fullmatched. -/
def flag_fullmatch (s : String) : Option String := do
  let r ← dropLit "-f".data s.data
  let (tk, r) ← span1 isFlagCh r
  if r.isEmpty then some (String.mk tk) else none

/-- `flag_enum_pat = re.compile("-f([-a-z0-9]+)=\\[([-A-Za-z_\\|]+)\\]")`,
fullmatched; returns the name and group 2 split on `"|"`. -/
def flag_enum_fullmatch (s : String) : Option (String × List String) := do
  let r ← dropLit "-f".data s.data
  let (name, r) ← span1 isFlagCh r
  let r ← dropLit "=[".data r
  let (vals, r) ← span1 isEnumCh r
  let r ← dropLit "]".data r
  if r.isEmpty then some (String.mk name, splitPipe vals) else none

/-- `flag_interval_pat = re.compile("-f([-a-z0-9]+)=<([0-9]+),([0-9]+)>")`,
fullmatched; the two digit groups are fed to `int(...)`. -/
def flag_interval_fullmatch (s : String) : Option (String × Int × Int) := do
  let r ← dropLit "-f".data s.data
  let (name, r) ← span1 isFlagCh r
  let r ← dropLit "=<".data r
  let (mn, r) ← span1 isDigitCh r
  let r ← dropLit ",".data r
  let (mx, r) ← span1 isDigitCh r
  let r ← dropLit ">".data r
  if r.isEmpty then some (String.mk name, (digitsToNat mn : Int), (digitsToNat mx : Int))
  else none

/-- `flag_number_pat = re.compile("-f([-a-z0-9]+)=<number>")`, fullmatched. -/
def flag_number_fullmatch (s : String) : Option String := do
  let r ← dropLit "-f".data s.data
  let (name, r) ← span1 isFlagCh r
  let r ← dropLit "=<number>".data r
  if r.isEmpty then some (String.mk name) else none

/-- `param_enum_pat = re.compile("--param=([-a-zA-Z0-9]+)=\\[([-A-Za-z_\\|]+)\\]")`,
fullmatched. -/
def param_enum_fullmatch (s : String) : Option (String × List String) := do
  let r ← dropLit "--param=".data s.data
  let (name, r) ← span1 isParamCh r
  let r ← dropLit "=[".data r
  let (vals, r) ← span1 isEnumCh r
  let r ← dropLit "]".data r
  if r.isEmpty then some (String.mk name, splitPipe vals) else none

/-- `param_interval_pat = re.compile("--param=([-a-zA-Z0-9]+)=<(-?[0-9]+),([0-9]+)>")`,
fullmatched (the minimum may carry a sign, the maximum may not). -/
def param_interval_fullmatch (s : String) : Option (String × Int × Int) := do
  let r ← dropLit "--param=".data s.data
  let (name, r) ← span1 isParamCh r
  let r ← dropLit "=<".data r
  let (neg, r) ← match r with
    | '-' :: r => pure (true, r)
    | r => pure (false, r)
  let (mn, r) ← span1 isDigitCh r
  let r ← dropLit ",".data r
  let (mx, r) ← span1 isDigitCh r
  let r ← dropLit ">".data r
  if r.isEmpty then
    some (String.mk name,
      (if neg then -(digitsToNat mn : Int) else (digitsToNat mn : Int)),
      (digitsToNat mx : Int))
  else none

/-- `param_number_pat = re.compile("--param=([-a-zA-Z0-9]+)=")`, fullmatched. -/
def param_number_fullmatch (s : String) : Option String := do
  let r ← dropLit "--param=".data s.data
  let (name, r) ← span1 isParamCh r
  let r ← dropLit "=".data r
  if r.isEmpty then some (String.mk name) else none

/-- A signed decimal numeral token (`-?\d+`). -/
def isSignedDigits (s : String) : Bool :=
  match s.data with
  | '-' :: rest => !rest.isEmpty && rest.all isDigitCh
  | cs => !cs.isEmpty && cs.all isDigitCh

/-- `param_old_interval_pat`, fullmatched against the whole line:
`([-a-zA-Z0-9]+)\s+default\s+(-?\d+)\s+minimum\s+(-?\d+)\s+maximum\s+(-?\d+)`.

Neither the name class, the literal words nor the numerals can contain
whitespace, and the `\s+` separators are exactly the whitespace runs, so a
string fullmatches iff it has no leading or trailing whitespace and its
whitespace-split is the seven tokens with the required shapes. -/
def param_old_interval_fullmatch (line : String) : Option (String × Int × Int × Int) :=
  if pyStrip line ≠ line then none
  else
    match pySplitWs line with
    | [name, w1, d, w2, mn, w3, mx] =>
      if w1 = "default" && w2 = "minimum" && w3 = "maximum" &&
          !name.data.isEmpty && name.data.all isParamCh &&
          isSignedDigits d && isSignedDigits mn && isSignedDigits mx then
        some (name, pyInt d, pyInt mn, pyInt mx)
      else none
    | _ => none

/-! ## Python exceptions and the name-keyed option map -/

/-- The exceptions that can arise in the embedded code. `timeoutExpired` and
`calledProcessError` are the `subprocess` module's own exception classes
(both subclasses of `subprocess.SubprocessError`). `serviceError` /
`serviceInitError` are modelled from the spec: CompilerGym's `ServiceError`
and `ServiceInitError` (imported from outside this file's source) are the
spec's "distinct" ExecutionFailure / EnvironmentUnavailable failure kinds,
not subprocess errors. -/
inductive PyErr where
  /-- A failed `assert`. -/
  | assertionError
  /-- `ValueError`, e.g. `len()` on an object whose `__len__` is negative. -/
  | valueError
  /-- `subprocess.TimeoutExpired`. -/
  | timeoutExpired
  /-- `subprocess.CalledProcessError`. -/
  | calledProcessError
  /-- `FileNotFoundError`. -/
  | fileNotFoundError
  /-- Modelled from the spec: `compiler_gym.service.ServiceError`, the
  distinct execution-failure exception; not a `subprocess` error. -/
  | serviceError (msg : String)
  /-- Modelled from the spec: `compiler_gym.service.ServiceInitError`. -/
  | serviceInitError (msg : String)
deriving DecidableEq, Repr

instance {ε α : Type} [DecidableEq ε] [DecidableEq α] : DecidableEq (Except ε α) := fun x y =>
  match x, y with
  | .ok a, .ok b => decidable_of_iff (a = b) (by simp)
  | .error a, .error b => decidable_of_iff (a = b) (by simp)
  | .ok _, .error _ => isFalse (by simp)
  | .error _, .ok _ => isFalse (by simp)

/-- Which of the embedded exceptions `except subprocess.SubprocessError`
catches. -/
def isSubprocessError : PyErr → Bool
  | .timeoutExpired => true
  | .calledProcessError => true
  | _ => false

/-- Python truthiness of an `Option` object: `bool(o)` calls `len(o)`, which
raises `ValueError` when `__len__` returns a negative value. -/
def pyTruthy (o : GccOpt) : Except PyErr Bool :=
  if pyLen o < 0 then .error .valueError else .ok (pyLen o ≠ 0)

/-- The parsers' `options` / `params` dict: an insertion-ordered association
list with unique keys. -/
abbrev OptMap := List (String × GccOpt)

/-- `d.get(k)` / `d.get(k, default) is present` probe. -/
def lookupA (k : String) : OptMap → Option GccOpt
  | [] => none
  | (k', v) :: rest => if k' = k then some v else lookupA k rest

/-- `d[k] = v`: replace in place if the key is present (Python dicts keep the
original insertion position), append otherwise. -/
def setA (k : String) (v : GccOpt) : OptMap → OptMap
  | [] => [(k, v)]
  | (k', v') :: rest => if k' = k then (k, v) :: rest else (k', v') :: setA k v rest

/-! ## `_gcc_parse_optimize` -/

/-- `add_gcc_o`: fetch-or-create the `"O"` entry, assert it is a
`GccOOption`, and append one value. -/
def add_gcc_o (value : String) (options : OptMap) : Except PyErr OptMap :=
  match lookupA "O" options with
  | none => .ok (setA "O" (GccOOption [value]) options)
  | some (GccOOption vs) => .ok (setA "O" (GccOOption (vs ++ [value])) options)
  | some _ => .error .assertionError

/-- `add_gcc_flag`: `options[name] = options.get(name, GccFlagOption(name))` —
create only when absent; an existing entry of any type is kept unchanged. -/
def add_gcc_flag (name : String) (options : OptMap) : OptMap :=
  match lookupA name options with
  | some _ => options
  | none => setA name (GccFlagOption name false) options

/-- `add_gcc_flag_enum`: `if opt: assert type(opt) == GccFlagOption`, then
always overwrite. -/
def add_gcc_flag_enum (name : String) (values : List String) (options : OptMap) :
    Except PyErr OptMap :=
  match lookupA name options with
  | none => .ok (setA name (GccFlagEnumOption name values) options)
  | some opt => do
    let t ← pyTruthy opt
    if t then
      match opt with
      | GccFlagOption _ _ => .ok (setA name (GccFlagEnumOption name values) options)
      | _ => .error .assertionError
    else .ok (setA name (GccFlagEnumOption name values) options)

/-- `add_gcc_flag_int`: same supersession discipline as `add_gcc_flag_enum`. -/
def add_gcc_flag_int (name : String) (mn mx : Int) (options : OptMap) :
    Except PyErr OptMap :=
  match lookupA name options with
  | none => .ok (setA name (GccFlagIntOption name mn mx) options)
  | some opt => do
    let t ← pyTruthy opt
    if t then
      match opt with
      | GccFlagOption _ _ => .ok (setA name (GccFlagIntOption name mn mx) options)
      | _ => .error .assertionError
    else .ok (setA name (GccFlagIntOption name mn mx) options)

/-- `add_gcc_flag_align`: same supersession discipline again. -/
def add_gcc_flag_align (name : String) (options : OptMap) : Except PyErr OptMap :=
  match lookupA name options with
  | none => .ok (setA name (GccFlagAlignOption name) options)
  | some opt => do
    let t ← pyTruthy opt
    if t then
      match opt with
      | GccFlagOption _ _ => .ok (setA name (GccFlagAlignOption name) options)
      | _ => .error .assertionError
    else .ok (setA name (GccFlagAlignOption name) options)

/-- `parse_line` of `_gcc_parse_optimize`: try the patterns on the first
whitespace token, most specific first, in the source's order; an unmatched
line only logs a warning and leaves the map unchanged. -/
def parse_line_optimize (line : String) (options : OptMap) : Except PyErr OptMap :=
  match pySplitWs line with
  | [] => .ok options
  | spec :: _ =>
    -- `O_num_pat = re.compile("-O<number>")` is all literal characters, so
    -- its fullmatch is equality with the pattern text.
    if spec = "-O<number>" then do
      let o1 ← add_gcc_o "0" options
      let o2 ← add_gcc_o "1" o1
      let o3 ← add_gcc_o "2" o2
      add_gcc_o "3" o3
    else
      match O_fullmatch spec with
      | some suffix => add_gcc_o suffix options
      | none =>
        match flag_align_eq_fullmatch spec with
        | some name => add_gcc_flag_align name options
        | none =>
          match flag_fullmatch spec with
          | some name => .ok (add_gcc_flag name options)
          | none =>
            match flag_enum_fullmatch spec with
            | some (name, values) => add_gcc_flag_enum name values options
            | none =>
              match flag_interval_fullmatch spec with
              | some (name, mn, mx) => add_gcc_flag_int name mn mx options
              | none =>
                match flag_number_fullmatch spec with
                | some name => add_gcc_flag_int name 0 ((2 <<< (31 - 1) : Nat) : Int) options
                | none => .ok options

/-- Insert a key-value pair into a key-sorted association list. -/
def insPair (p : String × GccOpt) : List (String × GccOpt) → List (String × GccOpt)
  | [] => [p]
  | q :: rest => if strLe p.1 q.1 then p :: q :: rest else q :: insPair p rest

/-- `sorted(list(d.items()))`: Python sorts the pairs by comparing tuples,
i.e. by key first; the keys of a dict are unique, so the values are never
compared and any comparison sort produces this list. -/
def sortItems (l : List (String × GccOpt)) : List (String × GccOpt) :=
  l.foldr insPair []

/-- `_gcc_parse_optimize`, from the raw text of `gcc --help=optimize -Q`, up
to the final `sorted(list(options.items()))`. -/
def gcc_parse_optimize_items (result : String) : Except PyErr (List (String × GccOpt)) := do
  let out := (splitLines result).drop 1
  let options ← out.foldlM (fun st line => parse_line_optimize (pyStrip line) st) ([] : OptMap)
  .ok (sortItems options)

/-- `_gcc_parse_optimize`: the sorted values of the option map. -/
def gcc_parse_optimize (result : String) : Except PyErr (List GccOpt) :=
  (gcc_parse_optimize_items result).map (fun items => items.map (fun x => x.2))

/-! ## `_gcc_parse_params` -/

/-- `add_gcc_param_enum`: `assert not opt` — any truthy existing entry is
fatal — then store. -/
def add_gcc_param_enum (name : String) (values : List String) (params : OptMap) :
    Except PyErr OptMap :=
  match lookupA name params with
  | none => .ok (setA name (GccParamEnumOption name values) params)
  | some opt => do
    let t ← pyTruthy opt
    if t then .error .assertionError
    else .ok (setA name (GccParamEnumOption name values) params)

/-- `add_gcc_param_int`: `assert not opt`, then store. -/
def add_gcc_param_int (name : String) (mn mx : Int) (params : OptMap) :
    Except PyErr OptMap :=
  match lookupA name params with
  | none => .ok (setA name (GccParamIntOption name mn mx) params)
  | some opt => do
    let t ← pyTruthy opt
    if t then .error .assertionError
    else .ok (setA name (GccParamIntOption name mn mx) params)

/-- `parse_line` of `_gcc_parse_params`. Lines with fewer than two tokens are
skipped; `spec` is the first token and `default` the second. The enum branch
always returns; the interval and number branches return only when
`is_int(default)`, otherwise control falls through to the next pattern; the
legacy branch returns only when the default lies inside the bounds; anything
else only logs a warning. -/
def parse_line_params (line : String) (params : OptMap) : Except PyErr OptMap :=
  match pySplitWs line with
  | [] => .ok params
  | [_] => .ok params
  | spec :: dflt :: _ =>
    match param_enum_fullmatch spec with
    | some (name, values) =>
      -- `assert not default or default in values`
      if dflt ≠ "" && !values.contains dflt then .error .assertionError
      else add_gcc_param_enum name values params
    | none =>
      let intervalStep : Option (Except PyErr OptMap) :=
        match param_interval_fullmatch spec with
        | some (name, mn, mx) =>
          if is_int dflt then
            -- `assert not default or min <= int(default) <= max`
            if dflt ≠ "" && !(mn ≤ pyInt dflt && pyInt dflt ≤ mx) then
              some (.error .assertionError)
            else some (add_gcc_param_int name mn mx params)
          else none
        | none => none
      match intervalStep with
      | some r => r
      | none =>
        let numberStep : Option (Except PyErr OptMap) :=
          match param_number_fullmatch spec with
          | some name =>
            if is_int dflt then
              -- `min = 0`, then `min = min if dflt >= min else dflt`
              some (add_gcc_param_int name
                (if pyInt dflt ≥ 0 then 0 else pyInt dflt)
                ((2 <<< (31 - 1) : Nat) : Int) params)
            else none
          | none => none
        match numberStep with
        | some r => r
        | none =>
          match param_old_interval_fullmatch line with
          | some (name, d, mn, mx) =>
            if mn ≤ d && d ≤ mx then add_gcc_param_int name mn mx params
            else .ok params
          | none => .ok params

/-- `_gcc_parse_params`, up to the final `sorted(list(params.items()))`. -/
def gcc_parse_params_items (result : String) : Except PyErr (List (String × GccOpt)) := do
  let out := (splitLines result).drop 1
  let params ← out.foldlM (fun st line => parse_line_params (pyStrip line) st) ([] : OptMap)
  .ok (sortItems params)

/-- `_gcc_parse_params`: the sorted values of the param map. -/
def gcc_parse_params (result : String) : Except PyErr (List GccOpt) :=
  (gcc_parse_params_items result).map (fun items => items.map (fun x => x.2))

/-! ## `_fix_options` -/

/-- The `keep` predicate of `_fix_options`: drop the `-flive-patching` enum
flag. -/
def keepOpt (option : GccOpt) : Bool :=
  match option with
  | GccFlagEnumOption name _ => !(name = "live-patching")
  | _ => true

/-- Parameters whose documented `-1` lower bound the compiler rejects. -/
def zeroMinParamNames : List String :=
  ["logical-op-non-short-circuit", "prefetch-minimum-stride",
   "sched-autopref-queue-depth", "vect-max-peeling-for-alignment"]

/-- Flags that have no `-fno-` form despite the general rule. -/
def noFnoFlagNames : List String :=
  ["stack-protector-all", "stack-protector-explicit", "stack-protector-strong"]

/-- The per-option body of `_fix_options`' loop (the source mutates the
option in place or reassigns `options[i]`; here it is one pure update). -/
def fixOne (option : GccOpt) : GccOpt :=
  match option with
  | GccParamIntOption name _ mx =>
    if zeroMinParamNames.contains name then GccParamIntOption name 0 mx else option
  | GccFlagOption name no_fno =>
    let name1 := if name = "handle-exceptions" then "exceptions" else name
    let no_fno1 := if noFnoFlagNames.contains name1 then true else no_fno
    let name2 := if name1 = "no-threadsafe-statics" then "threadsafe-statics" else name1
    GccFlagOption name2 no_fno1
  | GccFlagIntOption name _ _ =>
    if name = "pack-struct" then
      GccFlagEnumOption "pack-struct" ["1", "2", "4", "8", "16"]
    else option
  | _ => option

/-- `_fix_options`: filter by `keep`, then apply every fixup rule to each
surviving option. -/
def fix_options (options : List GccOpt) : List GccOpt :=
  (options.filter keepOpt).map fixOne

/-! ## Version fetch and `_get_spec` -/

/-- The outcome of `subprocess.check_output` for one GCC invocation: the
captured stdout, or one of the three exceptions `_subprocess_run` deals
with. -/
inductive SubprocOutcome where
  /-- Captured stdout. -/
  | ok (stdout : String)
  /-- Non-zero exit: `subprocess.CalledProcessError`. -/
  | calledProcessError
  /-- Binary missing: `FileNotFoundError`. -/
  | fileNotFound
  /-- Timeout: `subprocess.TimeoutExpired` (not caught by
  `_subprocess_run`). -/
  | timeoutExpired
deriving DecidableEq, Repr

/-- `Gcc._subprocess_run`: re-raise `CalledProcessError` as `ServiceError`
and `FileNotFoundError` as `ServiceInitError`; `TimeoutExpired` propagates
unchanged. -/
def subprocess_run (raw : SubprocOutcome) : Except PyErr String :=
  match raw with
  | .ok stdout => .ok stdout
  | .calledProcessError => .error (.serviceError "Failed to run gcc")
  | .fileNotFound => .error (.serviceInitError "GCC binary not found")
  | .timeoutExpired => .error .timeoutExpired

/-- `_gcc_get_version`: first line of `gcc --version`; raise `ServiceError`
when it does not contain `"gcc"`; the surrounding `try` catches only
`subprocess.SubprocessError` and degrades it to `None`. -/
def gcc_get_version (raw : SubprocOutcome) : Except PyErr (Option String) :=
  let body : Except PyErr (Option String) := do
    let result ← subprocess_run raw
    let version := ((splitLines result).head?).getD ""
    if !pyContainsSub version "gcc" then
      .error (.serviceError ("Invalid GCC version string: " ++ version))
    else .ok (some version)
  match body with
  | .error e => if isSubprocessError e then .ok none else .error e
  | .ok v => .ok v

/-- The picklable payload of a `GccSpec` (the `gcc` field is an executor
handle, rebound after unpickling and never persisted). -/
structure SpecData where
  /-- The version string. -/
  version : String
  /-- The option list. -/
  options : List GccOpt
deriving DecidableEq, Repr

/-- The state of the cache file for the version being queried: `none` — no
file; `some none` — a file that fails to unpickle (treated as a miss after a
warning); `some (some s)` — a loadable pickled spec. -/
abbrev CacheFile := Option (Option SpecData)

/-- `_get_spec`, with the three executor outputs and the cache file as
explicit inputs. Returns the result of the function together with what it
wrote to the cache (`none` = nothing written). -/
def get_spec (rawVersion : SubprocOutcome) (optimizeText paramText : String)
    (cache : CacheFile) : Except PyErr (Option SpecData × Option SpecData) := do
  let version? ← gcc_get_version rawVersion
  match version? with
  | none => .ok (none, none)
  | some version =>
    -- `if not version: return None` — also covers the empty string.
    if version = "" then .ok (none, none)
    else
      -- cache probe: unpickling failure is only a warning, `spec` stays `None`
      let specLoaded : Option SpecData :=
        match cache with
        | some (some s) => some s   -- `spec.gcc = gcc` rebinds the executor only
        | _ => none
      match specLoaded with
      | some spec => .ok (some spec, none)
      | none => do
        let optim_opts ← gcc_parse_optimize optimizeText
        let param_opts ← gcc_parse_params paramText
        let options := fix_options (optim_opts ++ param_opts)
        let spec : SpecData := ⟨version, options⟩
        if options.isEmpty then .ok (none, none)
        else .ok (some spec, some spec)

/-! ## Helper lemmas: strings and decimal representations -/

theorem str_data_inj {a b : String} (h : a.data = b.data) : a = b := by
  cases a; cases b; exact congrArg String.mk h

theorem strApp_left_cancel {a b c : String} (h : a ++ b = a ++ c) : b = c := by
  have h2 := congrArg String.data h
  simp only [String.data_append] at h2
  exact str_data_inj (List.append_cancel_left h2)

theorem dval_digitCh {n : Nat} (h : n < 10) : dval (digitCh n) = n := by
  interval_cases n <;> rfl

theorem isDigitCh_digitCh (n : Nat) : isDigitCh (digitCh n) = true := by
  rcases n with _ | _ | _ | _ | _ | _ | _ | _ | _ | n <;> rfl

theorem digitsToNat_append_singleton (A : List Char) (c : Char) :
    digitsToNat (A ++ [c]) = 10 * digitsToNat A + dval c := by
  simp [digitsToNat, List.foldl_append]

theorem digitsToNat_natReprAux (n : Nat) : digitsToNat (natReprAux n) = n := by
  induction n using Nat.strong_induction_on with
  | _ n ih =>
    rw [natReprAux]
    split
    · next h => simp [digitsToNat, dval_digitCh h]
    · next h =>
      rw [digitsToNat_append_singleton, ih (n / 10) (by omega),
        dval_digitCh (Nat.mod_lt _ (by omega))]
      omega

theorem natReprAux_inj {m n : Nat} (h : natReprAux m = natReprAux n) : m = n := by
  have := congrArg digitsToNat h
  rwa [digitsToNat_natReprAux, digitsToNat_natReprAux] at this

theorem natReprAux_all_digit (n : Nat) : ∀ c ∈ natReprAux n, isDigitCh c = true := by
  induction n using Nat.strong_induction_on with
  | _ n ih =>
    rw [natReprAux]
    split
    · intro c hc
      rw [List.mem_singleton] at hc
      exact hc ▸ isDigitCh_digitCh n
    · next h =>
      intro c hc
      rcases List.mem_append.1 hc with h1 | h1
      · exact ih (n / 10) (by omega) c h1
      · rw [List.mem_singleton] at h1
        exact h1 ▸ isDigitCh_digitCh (n % 10)

theorem natReprAux_ne_nil (n : Nat) : natReprAux n ≠ [] := by
  rw [natReprAux]; split <;> simp

theorem pyIntRepr_inj {i j : Int} (h : pyIntRepr i = pyIntRepr j) : i = j := by
  unfold pyIntRepr at h
  split_ifs at h with h1 h2 h2
  · have := congrArg String.data h
    simp only at this
    rw [List.cons.injEq] at this
    have := natReprAux_inj this.2
    omega
  · exfalso
    have hd := congrArg String.data h
    simp only at hd
    rcases he : natReprAux j.toNat with _ | ⟨c, t⟩
    · exact natReprAux_ne_nil _ he
    · rw [he, List.cons.injEq] at hd
      have : isDigitCh c = true := natReprAux_all_digit _ c (he ▸ List.mem_cons_self c t)
      rw [← hd.1] at this
      exact absurd this (by decide)
  · exfalso
    have hd := congrArg String.data h
    simp only at hd
    rcases he : natReprAux i.toNat with _ | ⟨c, t⟩
    · exact natReprAux_ne_nil _ he
    · rw [he, List.cons.injEq] at hd
      have : isDigitCh c = true := natReprAux_all_digit _ c (he ▸ List.mem_cons_self c t)
      rw [hd.1] at this
      exact absurd this (by decide)
  · have := congrArg String.data h
    simp only at this
    have := natReprAux_inj this
    omega

/-! ## Claim C2: the size of the option space -/

theorem size_foldl_eq (l : List GccOpt) : ∀ a : Int,
    l.foldl (fun sz o => sz * (pyLen o + 1)) a = a * (l.map (fun o => pyLen o + 1)).prod := by
  induction l with
  | nil => intro a; simp
  | cons x xs ih => intro a; simp [ih, mul_assoc]

/-- C2: for every `GccSpec`, `size` is the exact product over its options of
`len(option) + 1`, computed in arbitrary-precision integers; for an empty
option list it is `1`. -/
theorem claimC2_size_is_product :
    (∀ options : List GccOpt,
      GccSpec.size options = (options.map (fun o => pyLen o + 1)).prod) ∧
    GccSpec.size [] = 1 := by
  constructor
  · intro options
    rw [GccSpec.size, size_foldl_eq]
    simp
  · rfl

/-! ## Claim C8: idempotence of the fixup engine -/

theorem keepOpt_fixOne {o : GccOpt} (h : keepOpt o = true) : keepOpt (fixOne o) = true := by
  cases o with
  | GccFlagOption name no_fno => simp [fixOne, keepOpt]
  | GccParamIntOption name mn mx =>
    by_cases hm : name ∈ zeroMinParamNames <;> simp [fixOne, keepOpt, hm]
  | GccFlagIntOption name mn mx =>
    by_cases hm : name = "pack-struct" <;> simp [fixOne, keepOpt, hm]
  | _ => simp only [fixOne]; exact h

theorem fixOne_idem (o : GccOpt) : fixOne (fixOne o) = fixOne o := by
  cases o with
  | GccParamIntOption name mn mx =>
    by_cases hm : name ∈ zeroMinParamNames <;> simp [fixOne, hm]
  | GccFlagIntOption name mn mx =>
    by_cases hm : name = "pack-struct" <;> simp [fixOne, hm]
  | GccFlagOption name no_fno =>
    by_cases h1 : name = "handle-exceptions"
    · simp [fixOne, h1, noFnoFlagNames]
    · by_cases h2 : name = "no-threadsafe-statics"
      · simp [fixOne, h1, h2, noFnoFlagNames]
      · simp only [fixOne, noFnoFlagNames]
        simp [h1, h2]
  | _ => simp [fixOne]

theorem fix_options_idem (options : List GccOpt) :
    fix_options (fix_options options) = fix_options options := by
  unfold fix_options
  rw [List.filter_map]
  have h1 : (options.filter keepOpt).filter (keepOpt ∘ fixOne) = options.filter keepOpt := by
    rw [List.filter_eq_self]
    intro a ha
    exact keepOpt_fixOne (List.of_mem_filter ha)
  rw [h1, List.map_map]
  exact List.map_congr_left (fun a _ => fixOne_idem a)

/-- C8: `_fix_options` is idempotent — applying the fixup table twice gives
the same option list as applying it once: no option is renamed twice, no
bound narrowed twice, none dropped or re-typed a second time. -/
theorem claimC8_fix_options_idempotent (options : List GccOpt) :
    fix_options (fix_options options) = fix_options options :=
  fix_options_idem options

/-! ## Claim C9: out-of-domain indexing of a `no_fno` boolean flag -/

/-- C9: a `GccFlagOption` with `no_fno = True` has cardinality 1, so its
valid index domain is `[0, 1)`; yet `__getitem__(1)` is not restricted to
that domain and still returns the negated literal `-fno-<name>`. -/
theorem claimC9_no_fno_out_of_domain (name : String) :
    pyLen (GccFlagOption name true) = 1 ∧
    ¬ ((1 : Int) < pyLen (GccFlagOption name true)) ∧
    pyGetItem (GccFlagOption name true) 1 = some ("-fno-" ++ name) := by
  refine ⟨rfl, by simp [pyLen], ?_⟩
  simp [pyGetItem]

/-! ## Claim C10: the synthetic upper bound `2 << 31 - 1` -/

/-- C10: Python parses `2 << 31 - 1` as `2 << (31 - 1) = 2^31 = 2147483648`
(not `2^32 - 1`); both parsers use that value as the synthetic `max` for
unbounded numeric flags/params, giving cardinality `2^31 + 1` when
`min = 0`. -/
theorem claimC10_synthetic_upper_bound :
    ((2 <<< (31 - 1) : Nat) : Int) = 2147483648 ∧
    ((2 <<< (31 - 1) : Nat) : Int) = 2 ^ 31 ∧
    ((2 <<< (31 - 1) : Nat) : Int) ≠ 2 ^ 32 - 1 ∧
    parse_line_optimize "-ffoo=<number>" [] =
      .ok [("foo", GccFlagIntOption "foo" 0 2147483648)] ∧
    parse_line_params "--param=bar= 7" [] =
      .ok [("bar", GccParamIntOption "bar" 0 2147483648)] ∧
    pyLen (GccFlagIntOption "foo" 0 2147483648) = 2 ^ 31 + 1 ∧
    pyLen (GccParamIntOption "bar" 0 2147483648) = 2 ^ 31 + 1 := by
  refine ⟨by decide, by decide, by decide, by decide, by decide, by decide, by decide⟩

/-! ## Claim C1: index-to-literal templates and distinctness -/

theorem pyListGet_in_range {l : List String} {i : Int} (h0 : 0 ≤ i) (h1 : i.toNat < l.length) :
    pyListGet l i = some (l.get ⟨i.toNat, h1⟩) := by
  unfold pyListGet
  rw [if_pos h0]
  exact List.get?_eq_get h1

theorem values_index_ne {values : List String} (h : values.Nodup) (pre : String) {i j : Int}
    (h0 : 0 ≤ i) (h1 : i < (values.length : Int)) (h2 : 0 ≤ j) (h3 : j < (values.length : Int))
    (hne : i ≠ j) :
    (pyListGet values i).map (fun v => pre ++ v) ≠ (pyListGet values j).map (fun v => pre ++ v) := by
  rw [pyListGet_in_range h0 (by omega), pyListGet_in_range h2 (by omega)]
  intro heq
  simp only [Option.map_some', Option.some.injEq] at heq
  have hv := strApp_left_cancel heq
  have := (h.get_inj_iff).1 hv
  rw [Fin.mk.injEq] at this
  omega

/-- C1 (amended): indexing any option inside `[0, cardinality)` succeeds and
follows the variant's template (spelled out for the integer variants and the
two boolean-flag forms), and distinct in-range indices give distinct
literals provided the variant's values list is duplicate-free. -/
theorem claimC1_option_indexing :
    (∀ (o : GccOpt) (i : Int), 0 ≤ i → i < pyLen o → (pyGetItem o i).isSome = true) ∧
    (∀ (name : String) (mn mx i : Int),
      pyGetItem (GccFlagIntOption name mn mx) i = some ("-f" ++ name ++ "=" ++ pyIntRepr (mn + i))) ∧
    (∀ (name : String) (mn mx i : Int),
      pyGetItem (GccParamIntOption name mn mx) i =
        some ("--param=" ++ name ++ "=" ++ pyIntRepr (mn + i))) ∧
    (∀ (name : String) (b : Bool),
      pyGetItem (GccFlagOption name b) 0 = some ("-f" ++ name) ∧
      pyGetItem (GccFlagOption name b) 1 = some ("-fno-" ++ name)) ∧
    (∀ o : GccOpt, valuesNodup o → ∀ i j : Int, 0 ≤ i → i < pyLen o → 0 ≤ j → j < pyLen o →
      i ≠ j → pyGetItem o i ≠ pyGetItem o j) := by
  refine ⟨?_, fun name mn mx i => rfl, fun name mn mx i => rfl,
    fun name b => ⟨by simp [pyGetItem], by simp [pyGetItem]⟩, ?_⟩
  · intro o i h0 h1
    cases o <;> simp only [pyGetItem, pyLen] at h1 ⊢ <;>
      first
        | (rw [pyListGet_in_range h0 (by omega)]; simp)
        | simp
  · intro o hnd i j h0 h1 h2 h3 hne
    cases o with
    | GccOOption values =>
      exact values_index_ne hnd "-O" h0 h1 h2 h3 hne
    | GccFlagEnumOption name values =>
      exact values_index_ne hnd ("-f" ++ name ++ "=") h0 h1 h2 h3 hne
    | GccParamEnumOption name values =>
      exact values_index_ne hnd ("--param=" ++ name ++ "=") h0 h1 h2 h3 hne
    | GccFlagOption name b =>
      cases b with
      | true => simp only [pyLen, if_pos] at h1 h3; omega
      | false =>
        have hij : (i = 0 ∧ j = 1) ∨ (i = 1 ∧ j = 0) := by
          simp only [pyLen] at h1 h3; omega
        have key : ("-f" ++ name) ≠ ("-fno-" ++ name) := by
          intro hk
          have := congrArg String.length hk
          rw [String.length_append, String.length_append] at this
          have l2 : ("-f" : String).length = 2 := by decide
          have l5 : ("-fno-" : String).length = 5 := by decide
          omega
        rcases hij with ⟨rfl, rfl⟩ | ⟨rfl, rfl⟩ <;> simp [pyGetItem] <;> intro hk
        · exact key hk
        · exact key hk.symm
    | GccFlagAlignOption name =>
      simp only [pyLen] at h1 h3; omega
    | GccFlagIntOption name mn mx =>
      simp only [pyGetItem, ne_eq, Option.some.injEq]
      intro heq
      have := pyIntRepr_inj (strApp_left_cancel heq)
      omega
    | GccParamIntOption name mn mx =>
      simp only [pyGetItem, ne_eq, Option.some.injEq]
      intro heq
      have := pyIntRepr_inj (strApp_left_cancel heq)
      omega

/-- C1 counterexample: the parser accepts duplicate suffixes (two `-Ofast`
lines), and then the two distinct in-range indices 0 and 1 produce the same
literal. -/
theorem claimC1_counterexample :
    gcc_parse_optimize "h\n-Ofast\n-Ofast" = .ok [GccOOption ["fast", "fast"]] ∧
    (0 : Int) ≠ 1 ∧
    (0 : Int) ≤ 0 ∧ (0 : Int) < pyLen (GccOOption ["fast", "fast"]) ∧
    (0 : Int) ≤ 1 ∧ (1 : Int) < pyLen (GccOOption ["fast", "fast"]) ∧
    pyGetItem (GccOOption ["fast", "fast"]) 0 = pyGetItem (GccOOption ["fast", "fast"]) 1 := by
  refine ⟨by decide, by decide, by decide, by decide, by decide, by decide, by decide⟩

/-- C1 witness: a duplicate-free enum flag, evaluated at the distinct
in-range indices 0 and 1. -/
theorem claimC1_witness :
    valuesNodup (GccFlagEnumOption "foo" ["a", "b"]) ∧
    pyGetItem (GccFlagEnumOption "foo" ["a", "b"]) 0 ≠
      pyGetItem (GccFlagEnumOption "foo" ["a", "b"]) 1 :=
  ⟨by decide,
    claimC1_option_indexing.2.2.2.2 (GccFlagEnumOption "foo" ["a", "b"]) (by decide)
      0 1 (by decide) (by decide) (by decide) (by decide) (by decide)⟩

/-! ## Claim C3: the supersession rule of the optimize-help option map -/

theorem pyTruthy_flag (nm : String) (b : Bool) : pyTruthy (GccFlagOption nm b) = .ok true := by
  cases b <;> rfl

theorem except_bind_ok {α β : Type} (a : α) (f : α → Except PyErr β) :
    (Except.ok a : Except PyErr α) >>= f = f a := rfl

/-- C3 (amended): a boolean-flag sighting creates a provisional
`GccFlagOption` only when the name is absent and never replaces an existing
entry; an enum or integer (interval/number) sighting always replaces an
existing `GccFlagOption`; replacing a truthy (nonzero-`len()`) entry of any
other type is a fatal `AssertionError`, but a falsy entry of any type is
silently replaced with no assertion — `if opt:` skips the assert — and such
a specialized falsy entry is reachable (`-ffoo=<1,0>` stores a
`GccFlagIntOption` whose `__len__()` is 0); parsing `-ffoo` then
`-ffoo=[a|b]` yields the single final entry
`GccFlagEnumOption("foo", ["a", "b"])`. -/
theorem claimC3_supersession :
    (∀ (name : String) (st : OptMap) (o : GccOpt),
      lookupA name st = some o → add_gcc_flag name st = st) ∧
    (∀ (name : String) (st : OptMap),
      lookupA name st = none →
      add_gcc_flag name st = setA name (GccFlagOption name false) st) ∧
    (∀ (name : String) (values : List String) (st : OptMap) (nm : String) (b : Bool),
      lookupA name st = some (GccFlagOption nm b) →
      add_gcc_flag_enum name values st = .ok (setA name (GccFlagEnumOption name values) st)) ∧
    (∀ (name : String) (mn mx : Int) (st : OptMap) (nm : String) (b : Bool),
      lookupA name st = some (GccFlagOption nm b) →
      add_gcc_flag_int name mn mx st = .ok (setA name (GccFlagIntOption name mn mx) st)) ∧
    (∀ (name : String) (values : List String) (st : OptMap) (o : GccOpt),
      lookupA name st = some o → isFlagOpt o = false → pyTruthy o = .ok true →
      add_gcc_flag_enum name values st = .error .assertionError) ∧
    (∀ (name : String) (mn mx : Int) (st : OptMap) (o : GccOpt),
      lookupA name st = some o → isFlagOpt o = false → pyTruthy o = .ok true →
      add_gcc_flag_int name mn mx st = .error .assertionError) ∧
    (∀ (name : String) (values : List String) (st : OptMap) (o : GccOpt),
      lookupA name st = some o → pyTruthy o = .ok false →
      add_gcc_flag_enum name values st = .ok (setA name (GccFlagEnumOption name values) st)) ∧
    (∀ (name : String) (mn mx : Int) (st : OptMap) (o : GccOpt),
      lookupA name st = some o → pyTruthy o = .ok false →
      add_gcc_flag_int name mn mx st = .ok (setA name (GccFlagIntOption name mn mx) st)) ∧
    gcc_parse_optimize "h\n-ffoo\n-ffoo=[a|b]" = .ok [GccFlagEnumOption "foo" ["a", "b"]] ∧
    gcc_parse_optimize "h\n-ffoo=<1,0>\n-ffoo=[a|b]" =
      .ok [GccFlagEnumOption "foo" ["a", "b"]] := by
  refine ⟨?_, ?_, ?_, ?_, ?_, ?_, ?_, ?_, by decide, by decide⟩
  · intro name st o h
    unfold add_gcc_flag
    rw [h]
  · intro name st h
    unfold add_gcc_flag
    rw [h]
  · intro name values st nm b h
    unfold add_gcc_flag_enum
    rw [h]
    cases b <;> rfl
  · intro name mn mx st nm b h
    unfold add_gcc_flag_int
    rw [h]
    cases b <;> rfl
  · intro name values st o h hflag htruthy
    unfold add_gcc_flag_enum
    rw [h]
    cases o <;> simp_all [isFlagOpt, except_bind_ok]
  · intro name mn mx st o h hflag htruthy
    unfold add_gcc_flag_int
    rw [h]
    cases o <;> simp_all [isFlagOpt, except_bind_ok]
  · intro name values st o h ht
    unfold add_gcc_flag_enum
    rw [h]
    simp only []
    rw [ht, except_bind_ok]
    simp
  · intro name mn mx st o h ht
    unfold add_gcc_flag_int
    rw [h]
    simp only []
    rw [ht, except_bind_ok]
    simp

/-- C3 counterexample: `-ffoo=<1,0>` stores the specialized (non-boolean)
entry `GccFlagIntOption("foo", 1, 0)` whose `__len__()` is 0, so it is
falsy; the later enum sighting `-ffoo=[a|b]` then replaces it silently
(`if opt:` skips the assert) instead of failing with an `AssertionError`,
refuting the claim that any replacement of a non-provisional-boolean entry
is fatal. -/
theorem claimC3_counterexample :
    gcc_parse_optimize "h\n-ffoo=<1,0>" = .ok [GccFlagIntOption "foo" 1 0] ∧
    isFlagOpt (GccFlagIntOption "foo" 1 0) = false ∧
    add_gcc_flag_enum "foo" ["a", "b"] [("foo", GccFlagIntOption "foo" 1 0)] =
      .ok [("foo", GccFlagEnumOption "foo" ["a", "b"])] ∧
    gcc_parse_optimize "h\n-ffoo=<1,0>\n-ffoo=[a|b]" =
      .ok [GccFlagEnumOption "foo" ["a", "b"]] := by
  refine ⟨by decide, by decide, by decide, by decide⟩

/-- C3 witness: a concrete map holding a provisional flag `x` and an enum
`y`; the enum sighting of `x` replaces it, the enum sighting of `y` is a
fatal assertion failure, and the end-to-end two-line parse is evaluated. -/
theorem claimC3_witness :
    add_gcc_flag_enum "x" ["a"]
        [("x", GccFlagOption "x" false), ("y", GccFlagEnumOption "y" ["v"])] =
      .ok [("x", GccFlagEnumOption "x" ["a"]), ("y", GccFlagEnumOption "y" ["v"])] ∧
    add_gcc_flag_enum "y" ["a"]
        [("x", GccFlagOption "x" false), ("y", GccFlagEnumOption "y" ["v"])] =
      .error .assertionError ∧
    add_gcc_flag_enum "z" ["a"] [("z", GccFlagIntOption "z" 1 0)] =
      .ok [("z", GccFlagEnumOption "z" ["a"])] :=
  ⟨by
    have h := claimC3_supersession.2.2.1 "x" ["a"]
      [("x", GccFlagOption "x" false), ("y", GccFlagEnumOption "y" ["v"])] "x" false (by decide)
    simpa using h,
  claimC3_supersession.2.2.2.2.1 "y" ["a"]
    [("x", GccFlagOption "x" false), ("y", GccFlagEnumOption "y" ["v"])]
    (GccFlagEnumOption "y" ["v"]) (by decide) (by decide) (by decide),
  by
    have h := claimC3_supersession.2.2.2.2.2.2.1 "z" ["a"]
      [("z", GccFlagIntOption "z" 1 0)] (GccFlagIntOption "z" 1 0) (by decide) (by decide)
    simpa using h⟩

/-! ## Claim C4: parameter lines and in-bounds defaults -/

theorem dropLit_eq_append {l cs r : List Char} (h : dropLit l cs = some r) : cs = l ++ r := by
  induction l generalizing cs with
  | nil => simpa [dropLit] using h
  | cons x xs ih =>
    cases cs with
    | nil => simp [dropLit] at h
    | cons c cs' =>
      simp only [dropLit] at h
      split_ifs at h with hc
      subst hc
      simpa using ih h

theorem dropLit_self (l r : List Char) : dropLit l (l ++ r) = some r := by
  induction l with
  | nil => rfl
  | cons x xs ih => simpa [dropLit] using ih

theorem span1_eq {p : Char → Bool} {cs tk r : List Char} (h : span1 p cs = some (tk, r)) :
    cs = tk ++ r ∧ tk ≠ [] ∧ tk.all p = true := by
  unfold span1 at h
  split_ifs at h with he
  rw [Option.some.injEq, Prod.mk.injEq] at h
  obtain ⟨rfl, rfl⟩ := h
  exact ⟨(List.takeWhile_append_dropWhile p cs).symm, by simpa [List.isEmpty_iff] using he,
    List.all_eq_true.2 fun x hx => List.mem_takeWhile_imp hx⟩

theorem takeWhile_append_of_stop {p : Char → Bool} {tk r : List Char}
    (hall : tk.all p = true) (hstop : ∀ c, r.head? = some c → p c = false) :
    (tk ++ r).takeWhile p = tk ∧ (tk ++ r).dropWhile p = r := by
  induction tk with
  | nil =>
    cases r with
    | nil => exact ⟨rfl, rfl⟩
    | cons c cs => simp [List.takeWhile_cons, List.dropWhile_cons, hstop c rfl]
  | cons x xs ih =>
    rw [List.all_cons, Bool.and_eq_true] at hall
    have h2 := ih hall.2
    simp [List.takeWhile_cons, List.dropWhile_cons, hall.1, h2.1, h2.2]

theorem span1_append_of_stop {p : Char → Bool} {tk r : List Char} (hne : tk ≠ [])
    (hall : tk.all p = true) (hstop : ∀ c, r.head? = some c → p c = false) :
    span1 p (tk ++ r) = some (tk, r) := by
  have h := takeWhile_append_of_stop hall hstop
  unfold span1
  rw [h.1, h.2, if_neg (by simpa [List.isEmpty_iff] using hne)]

/-- A token made only of parameter-name characters (so containing no `=`)
matches none of the three modern `--param=` patterns. -/
theorem param_matchers_none_of_name {s : String} (hall : s.data.all isParamCh = true) :
    param_enum_fullmatch s = none ∧ param_interval_fullmatch s = none ∧
    param_number_fullmatch s = none := by
  have key : dropLit "--param=".data s.data = none := by
    cases hd : dropLit "--param=".data s.data with
    | none => rfl
    | some r =>
      exfalso
      have hs := dropLit_eq_append hd
      have hmem : ('=' : Char) ∈ s.data := by
        rw [hs]
        exact List.mem_append.2 (Or.inl (by decide))
      have := List.all_eq_true.1 hall _ hmem
      exact absurd this (by decide)
  refine ⟨?_, ?_, ?_⟩ <;>
    simp [param_enum_fullmatch, param_interval_fullmatch, param_number_fullmatch, key]

/-- A spec that fullmatches the modern interval pattern does not match the
enum pattern (the character after the name is `<`, not `[`). -/
theorem param_enum_none_of_interval {s : String} {name : String} {mn mx : Int}
    (h : param_interval_fullmatch s = some (name, mn, mx)) :
    param_enum_fullmatch s = none := by
  cases h1 : dropLit "--param=".data s.data with
  | none => simp [param_enum_fullmatch, h1]
  | some r1 =>
    cases h2 : span1 isParamCh r1 with
    | none => simp [param_interval_fullmatch, h1, h2] at h
    | some tkr =>
      obtain ⟨tk, r2⟩ := tkr
      cases h3 : dropLit "=<".data r2 with
      | none => simp [param_interval_fullmatch, h1, h2, h3] at h
      | some r3 =>
        have hr2 : r2 = '=' :: '<' :: r3 := dropLit_eq_append h3
        obtain ⟨hr1, htkne, htkall⟩ := span1_eq h2
        have hs : s.data = "--param=".data ++ (tk ++ ('=' :: '<' :: r3)) := by
          rw [← hr2, ← hr1]
          exact dropLit_eq_append h1
        have e1 : dropLit "--param=".data s.data = some (tk ++ ('=' :: '<' :: r3)) := by
          rw [hs]
          exact dropLit_self _ _
        have e2 : span1 isParamCh (tk ++ ('=' :: '<' :: r3)) = some (tk, '=' :: '<' :: r3) :=
          span1_append_of_stop htkne htkall
            (fun c hc => by
              rw [List.head?_cons, Option.some.injEq] at hc
              subst hc
              decide)
        have e3 : dropLit "=[".data ('=' :: '<' :: r3) = none := by
          simp [dropLit]
        simp [param_enum_fullmatch, e1, e2, e3]

theorem add_gcc_param_int_absent {name : String} {mn mx : Int} {st : OptMap}
    (h : lookupA name st = none) :
    add_gcc_param_int name mn mx st = .ok (setA name (GccParamIntOption name mn mx) st) := by
  unfold add_gcc_param_int
  rw [h]

theorem param_old_interval_inv {line name : String} {d mn mx : Int}
    (h : param_old_interval_fullmatch line = some (name, d, mn, mx)) :
    ∃ dTok mnTok mxTok : String,
      pySplitWs line = [name, "default", dTok, "minimum", mnTok, "maximum", mxTok] ∧
      name.data ≠ [] ∧ name.data.all isParamCh = true ∧
      pyInt dTok = d ∧ pyInt mnTok = mn ∧ pyInt mxTok = mx := by
  unfold param_old_interval_fullmatch at h
  split_ifs at h with hstrip
  split at h
  next nm w1 dT w2 mnT w3 mxT heq =>
    split_ifs at h with hcond
    rw [Option.some.injEq, Prod.mk.injEq, Prod.mk.injEq, Prod.mk.injEq] at h
    obtain ⟨rfl, rfl, rfl, rfl⟩ := h
    simp only [Bool.and_eq_true, decide_eq_true_eq] at hcond
    obtain ⟨⟨⟨⟨⟨⟨⟨hw1, hw2⟩, hw3⟩, hne⟩, hall⟩, hd⟩, hmn⟩, hmx⟩ := hcond
    exact ⟨dT, mnT, mxT, by rw [heq, hw1, hw2, hw3], by simpa using hne, hall, rfl, rfl, rfl⟩
  next => simp at h

/-- C4 (amended): a legacy line `name default D minimum MIN maximum MAX`
(for a name not yet in the map) adds `GccParamIntOption(name, MIN, MAX)`
exactly when `MIN ≤ D ≤ MAX`, and otherwise leaves the map unchanged apart
from a warning; but for the modern form `--param=name=<MIN,MAX>` with an
integer default column, an out-of-bounds default is a fatal
`AssertionError`, not a warning. -/
theorem claimC4_default_in_bounds :
    (∀ (line name : String) (d mn mx : Int) (st : OptMap),
      param_old_interval_fullmatch line = some (name, d, mn, mx) →
      lookupA name st = none →
      parse_line_params line st =
        .ok (if mn ≤ d ∧ d ≤ mx then setA name (GccParamIntOption name mn mx) st else st)) ∧
    (∀ (line spec dflt : String) (rest : List String) (name : String) (mn mx : Int) (st : OptMap),
      pySplitWs line = spec :: dflt :: rest →
      param_interval_fullmatch spec = some (name, mn, mx) →
      is_int dflt = true →
      lookupA name st = none →
      parse_line_params line st =
        if mn ≤ pyInt dflt ∧ pyInt dflt ≤ mx then
          .ok (setA name (GccParamIntOption name mn mx) st)
        else .error .assertionError) := by
  constructor
  · intro line name d mn mx st hold habs
    obtain ⟨dTok, mnTok, mxTok, hsplit, hnne, hall, hdv, hmnv, hmxv⟩ :=
      param_old_interval_inv hold
    have hmodern := param_matchers_none_of_name (s := name) hall
    rw [parse_line_params, hsplit]
    simp only [hmodern.1, hmodern.2.1, hmodern.2.2, hold]
    by_cases hb : mn ≤ d ∧ d ≤ mx
    · rw [if_pos hb]
      split_ifs with hc
      · exact add_gcc_param_int_absent habs
      · exact absurd (by simp [hb.1, hb.2]) hc
    · rw [if_neg hb]
      split_ifs with hc
      · exact absurd (by simpa using hc) hb
      · rfl
  · intro line spec dflt rest name mn mx st hsplit hm hint habs
    have henum := param_enum_none_of_interval hm
    have hdne : dflt ≠ "" := by
      intro hc
      rw [hc] at hint
      exact absurd hint (by decide)
    rw [parse_line_params, hsplit]
    simp only [henum, hm, hint]
    by_cases hb : mn ≤ pyInt dflt ∧ pyInt dflt ≤ mx
    · rw [if_pos hb]
      simp only [hb.1, hb.2]
      simp
      exact add_gcc_param_int_absent habs
    · rw [if_neg hb]
      rcases not_and_or.1 hb with hb1 | hb1 <;> simp [hdne, hb1]

/-- C4 counterexample: on the modern interval line `--param=foo=<0,10> 20`
(default 20 outside `[0, 10]`) the parser aborts with an `AssertionError`
instead of dropping the line with a warning. -/
theorem claimC4_counterexample :
    parse_line_params "--param=foo=<0,10> 20" [] = .error .assertionError ∧
    parse_line_params "--param=foo=<0,10> 20" [] ≠ .ok [] := by
  exact ⟨by decide, by decide⟩

/-- C4 witness: a legacy line with in-bounds default adds the option; the
same legacy line with an out-of-bounds default leaves the map unchanged. -/
theorem claimC4_witness :
    parse_line_params "p default 5 minimum 0 maximum 10" [] =
      .ok [("p", GccParamIntOption "p" 0 10)] ∧
    parse_line_params "p default 20 minimum 0 maximum 10" [] = .ok [] := by
  constructor
  · have h := claimC4_default_in_bounds.1 "p default 5 minimum 0 maximum 10" "p" 5 0 10 []
      (by decide) (by decide)
    simpa using h
  · have h := claimC4_default_in_bounds.1 "p default 20 minimum 0 maximum 10" "p" 20 0 10 []
      (by decide) (by decide)
    simpa using h

/-! ## Claim C6: version-fetch failure handling -/

theorem except_bind_error {α β : Type} (e : PyErr) (f : α → Except PyErr β) :
    (Except.error e : Except PyErr α) >>= f = .error e := rfl

theorem gcc_get_version_invalid {out : String}
    (h : pyContainsSub (((splitLines out).head?).getD "") "gcc" = false) :
    gcc_get_version (.ok out) =
      .error (.serviceError ("Invalid GCC version string: " ++ ((splitLines out).head?).getD "")) := by
  rw [gcc_get_version]
  simp [subprocess_run, except_bind_ok, h, isSubprocessError]

/-- C6 (amended): only a `subprocess.SubprocessError` from the version query
(in the embedded subprocess path, a timeout) makes `_get_spec` return
`None`; a non-zero exit is rewrapped as `ServiceError` and a first line not
containing `"gcc"` raises `ServiceError`, and both of those (like the
`ServiceInitError` for a missing binary) propagate to the caller instead of
returning `None`. -/
theorem claimC6_version_failure :
    (∀ (optT parT : String) (cache : CacheFile),
      get_spec .timeoutExpired optT parT cache = .ok (none, none)) ∧
    (∀ (optT parT : String) (cache : CacheFile),
      get_spec .calledProcessError optT parT cache =
        .error (.serviceError "Failed to run gcc")) ∧
    (∀ (optT parT : String) (cache : CacheFile),
      get_spec .fileNotFound optT parT cache =
        .error (.serviceInitError "GCC binary not found")) ∧
    (∀ (out optT parT : String) (cache : CacheFile),
      pyContainsSub (((splitLines out).head?).getD "") "gcc" = false →
      get_spec (.ok out) optT parT cache =
        .error (.serviceError ("Invalid GCC version string: " ++ ((splitLines out).head?).getD ""))) := by
  refine ⟨fun _ _ _ => rfl, fun _ _ _ => rfl, fun _ _ _ => rfl, ?_⟩
  intro out optT parT cache h
  simp only [get_spec, gcc_get_version_invalid h, except_bind_error]

/-- C6 counterexample: a recognized-shape invocation whose first output line
lacks `"gcc"` makes discovery raise `ServiceError` — it does not return
`None`. -/
theorem claimC6_counterexample :
    get_spec (.ok "clang 1.0\nx") "" "" none =
      .error (.serviceError "Invalid GCC version string: clang 1.0") ∧
    get_spec (.ok "clang 1.0\nx") "" "" none ≠ .ok (none, none) := by
  exact ⟨by decide, by decide⟩

/-- C6 witness: the invalid-identifier branch evaluated on a concrete
non-GCC version output. -/
theorem claimC6_witness :
    get_spec (.ok "icc 2021\n") "h" "h" none =
      .error (.serviceError ("Invalid GCC version string: " ++ "icc 2021")) := by
  have h := claimC6_version_failure.2.2.2 "icc 2021\n" "h" "h" none (by decide)
  simpa using h

/-! ## Claim C7: empty specs are never cached or returned -/

/-- C7: assuming every loadable cached spec was produced by a previous
successful discovery (non-empty, fixed-up options), `_get_spec` never
returns and never writes an empty or non-fixed-up spec, and on a cache miss
with an empty fixed-up parse result it returns `None` and writes nothing. -/
theorem claimC7_no_empty_spec :
    ∀ (rawV : SubprocOutcome) (optT parT : String) (cache : CacheFile),
    (∀ s, cache = some (some s) → s.options ≠ [] ∧ fix_options s.options = s.options) →
    ∀ res wr, get_spec rawV optT parT cache = .ok (res, wr) →
      (∀ s, res = some s → s.options ≠ [] ∧ fix_options s.options = s.options) ∧
      (∀ s, wr = some s → s.options ≠ [] ∧ fix_options s.options = s.options) ∧
      ((cache = none ∨ cache = some none) →
        ∀ o p, gcc_parse_optimize optT = .ok o → gcc_parse_params parT = .ok p →
          fix_options (o ++ p) = [] → res = none ∧ wr = none) := by
  intro rawV optT parT cache hcache res wr hrun
  delta get_spec at hrun
  cases hv : gcc_get_version rawV with
  | error e =>
    rw [hv, except_bind_error] at hrun
    exact absurd hrun (by simp)
  | ok v? =>
    rw [hv, except_bind_ok] at hrun
    cases v? with
    | none =>
      rw [Except.ok.injEq, Prod.mk.injEq] at hrun
      obtain ⟨hres, hwr⟩ := hrun
      subst hres; subst hwr
      exact ⟨by simp, by simp, fun _ _ _ _ _ _ => ⟨rfl, rfl⟩⟩
    | some version =>
      cases cache with
      | some inner =>
        cases inner with
        | some s =>
          -- cache hit: the deserialized spec is returned, nothing written
          replace hrun :
              (if version = "" then (Except.ok (none, none) :
                  Except PyErr (Option SpecData × Option SpecData))
              else Except.ok (some s, none)) = .ok (res, wr) := hrun
          by_cases hver : version = ""
          · rw [if_pos hver, Except.ok.injEq, Prod.mk.injEq] at hrun
            obtain ⟨hres, hwr⟩ := hrun
            subst hres; subst hwr
            exact ⟨by simp, by simp, fun _ _ _ _ _ _ => ⟨rfl, rfl⟩⟩
          · rw [if_neg hver, Except.ok.injEq, Prod.mk.injEq] at hrun
            obtain ⟨hres, hwr⟩ := hrun
            subst hres; subst hwr
            refine ⟨?_, by simp, ?_⟩
            · intro s' hs'
              rw [Option.some.injEq] at hs'
              subst hs'
              exact hcache _ rfl
            · intro hdisj
              rcases hdisj with hd | hd <;> simp at hd
        | none =>
          -- corrupt cache file: treated as a miss; parse path
          replace hrun :
              (if version = "" then (Except.ok (none, none) :
                  Except PyErr (Option SpecData × Option SpecData))
              else do
                let optim_opts ← gcc_parse_optimize optT
                let param_opts ← gcc_parse_params parT
                let options : List GccOpt := fix_options (optim_opts ++ param_opts)
                let spec : SpecData := ⟨version, options⟩
                if options.isEmpty then Except.ok (none, none)
                else Except.ok (some spec, some spec)) = .ok (res, wr) := hrun
          by_cases hver : version = ""
          · rw [if_pos hver, Except.ok.injEq, Prod.mk.injEq] at hrun
            obtain ⟨hres, hwr⟩ := hrun
            subst hres; subst hwr
            exact ⟨by simp, by simp, fun _ _ _ _ _ _ => ⟨rfl, rfl⟩⟩
          · rw [if_neg hver] at hrun
            cases ho : gcc_parse_optimize optT with
            | error e => rw [ho, except_bind_error] at hrun; exact absurd hrun (by simp)
            | ok o =>
              rw [ho, except_bind_ok] at hrun
              cases hp : gcc_parse_params parT with
              | error e =>
                rw [hp, except_bind_error] at hrun
                exact absurd hrun (by simp)
              | ok p =>
                rw [hp, except_bind_ok] at hrun
                by_cases hemp : (fix_options (o ++ p)).isEmpty = true
                · rw [if_pos hemp, Except.ok.injEq, Prod.mk.injEq] at hrun
                  obtain ⟨hres, hwr⟩ := hrun
                  subst hres; subst hwr
                  exact ⟨by simp, by simp, fun _ o' p' ho' hp' _ => ⟨rfl, rfl⟩⟩
                · rw [if_neg hemp, Except.ok.injEq, Prod.mk.injEq] at hrun
                  obtain ⟨hres, hwr⟩ := hrun
                  subst hres; subst hwr
                  have hne : fix_options (o ++ p) ≠ [] := by
                    simpa [List.isEmpty_iff] using hemp
                  refine ⟨?_, ?_, ?_⟩
                  · intro s' hs'
                    rw [Option.some.injEq] at hs'
                    subst hs'
                    exact ⟨hne, fix_options_idem _⟩
                  · intro s' hs'
                    rw [Option.some.injEq] at hs'
                    subst hs'
                    exact ⟨hne, fix_options_idem _⟩
                  · intro _ o' p' ho' hp' hfix
                    have ho2 : o = o' := by simpa using ho'
                    have hp2 : p = p' := by simpa using hp'
                    subst ho2; subst hp2
                    exact absurd hfix hne
      | none =>
        replace hrun :
            (if version = "" then (Except.ok (none, none) :
                Except PyErr (Option SpecData × Option SpecData))
            else do
              let optim_opts ← gcc_parse_optimize optT
              let param_opts ← gcc_parse_params parT
              let options : List GccOpt := fix_options (optim_opts ++ param_opts)
              let spec : SpecData := ⟨version, options⟩
              if options.isEmpty then Except.ok (none, none)
              else Except.ok (some spec, some spec)) = .ok (res, wr) := hrun
        by_cases hver : version = ""
        · rw [if_pos hver, Except.ok.injEq, Prod.mk.injEq] at hrun
          obtain ⟨hres, hwr⟩ := hrun
          subst hres; subst hwr
          exact ⟨by simp, by simp, fun _ _ _ _ _ _ => ⟨rfl, rfl⟩⟩
        · rw [if_neg hver] at hrun
          cases ho : gcc_parse_optimize optT with
          | error e => rw [ho, except_bind_error] at hrun; exact absurd hrun (by simp)
          | ok o =>
            rw [ho, except_bind_ok] at hrun
            cases hp : gcc_parse_params parT with
            | error e =>
              rw [hp, except_bind_error] at hrun
              exact absurd hrun (by simp)
            | ok p =>
              rw [hp, except_bind_ok] at hrun
              by_cases hemp : (fix_options (o ++ p)).isEmpty = true
              · rw [if_pos hemp, Except.ok.injEq, Prod.mk.injEq] at hrun
                obtain ⟨hres, hwr⟩ := hrun
                subst hres; subst hwr
                exact ⟨by simp, by simp, fun _ o' p' ho' hp' _ => ⟨rfl, rfl⟩⟩
              · rw [if_neg hemp, Except.ok.injEq, Prod.mk.injEq] at hrun
                obtain ⟨hres, hwr⟩ := hrun
                subst hres; subst hwr
                have hne : fix_options (o ++ p) ≠ [] := by
                  simpa [List.isEmpty_iff] using hemp
                refine ⟨?_, ?_, ?_⟩
                · intro s' hs'
                  rw [Option.some.injEq] at hs'
                  subst hs'
                  exact ⟨hne, fix_options_idem _⟩
                · intro s' hs'
                  rw [Option.some.injEq] at hs'
                  subst hs'
                  exact ⟨hne, fix_options_idem _⟩
                · intro _ o' p' ho' hp' hfix
                  have ho2 : o = o' := by simpa using ho'
                  have hp2 : p = p' := by simpa using hp'
                  subst ho2; subst hp2
                  exact absurd hfix hne

/-- C7 witness: a discovery run over empty help texts (zero options) with an
empty cache returns no spec and writes nothing. -/
theorem claimC7_witness :
    get_spec (.ok "gcc 9\n") "" "" none = .ok (none, none) ∧
    ((none : Option SpecData) = none ∧ (none : Option SpecData) = none) := by
  refine ⟨by decide, ?_⟩
  have h := claimC7_no_empty_spec (.ok "gcc 9\n") "" "" none
    (fun s hs => by cases hs) none none (by decide)
  exact h.2.2 (Or.inl rfl) [] [] (by decide) (by decide) (by decide)

/-! ## Claim C5: ordering machinery for the parsers' `sorted(...)` -/

theorem charsLe_total (as bs : List Char) : charsLe as bs = true ∨ charsLe bs as = true := by
  induction as generalizing bs with
  | nil => left; rfl
  | cons a as ih =>
    cases bs with
    | nil => right; rfl
    | cons b bs =>
      simp only [charsLe]
      rcases Nat.lt_trichotomy a.toNat b.toNat with hlt | heq | hgt
      · left; rw [if_pos hlt]
      · simp only [if_neg (show ¬ a.toNat < b.toNat by omega),
          if_neg (show ¬ b.toNat < a.toNat by omega)]
        exact ih bs
      · right; rw [if_pos hgt]

theorem charsLe_trans {as bs cs : List Char} (h1 : charsLe as bs = true)
    (h2 : charsLe bs cs = true) : charsLe as cs = true := by
  induction as generalizing bs cs with
  | nil => rfl
  | cons a as ih =>
    cases bs with
    | nil => simp [charsLe] at h1
    | cons b bs =>
      cases cs with
      | nil => simp [charsLe] at h2
      | cons c cs =>
        simp only [charsLe] at h1 h2 ⊢
        split_ifs at h1 h2 ⊢ <;> first | rfl | omega | exact ih h1 h2

theorem strLe_total (a b : String) : strLe a b = true ∨ strLe b a = true :=
  charsLe_total a.data b.data

theorem strLe_trans {a b c : String} (h1 : strLe a b = true) (h2 : strLe b c = true) :
    strLe a c = true :=
  charsLe_trans h1 h2

theorem mem_insPair {p x : String × GccOpt} {l : List (String × GccOpt)}
    (h : x ∈ insPair p l) : x = p ∨ x ∈ l := by
  induction l with
  | nil => simpa [insPair] using h
  | cons q rest ih =>
    simp only [insPair] at h
    split_ifs at h with hle
    · simpa using List.mem_cons.1 h
    · rcases List.mem_cons.1 h with h1 | h1
      · exact Or.inr (List.mem_cons.2 (Or.inl h1))
      · rcases ih h1 with h2 | h2
        · exact Or.inl h2
        · exact Or.inr (List.mem_cons.2 (Or.inr h2))

theorem insPair_perm (p : String × GccOpt) (l : List (String × GccOpt)) :
    (insPair p l).Perm (p :: l) := by
  induction l with
  | nil => exact List.Perm.refl _
  | cons q rest ih =>
    simp only [insPair]
    split_ifs with hle
    · exact List.Perm.refl _
    · exact (List.Perm.cons q ih).trans (List.Perm.swap p q rest)

theorem pairwise_insPair {p : String × GccOpt} {l : List (String × GccOpt)}
    (hl : l.Pairwise (fun x y => strLe x.1 y.1 = true)) :
    (insPair p l).Pairwise (fun x y => strLe x.1 y.1 = true) := by
  induction l with
  | nil => simp [insPair]
  | cons q rest ih =>
    rw [List.pairwise_cons] at hl
    obtain ⟨hq, hrest⟩ := hl
    simp only [insPair]
    split_ifs with hle
    · rw [List.pairwise_cons]
      refine ⟨?_, by rw [List.pairwise_cons]; exact ⟨hq, hrest⟩⟩
      intro x hx
      rcases List.mem_cons.1 hx with rfl | hx2
      · exact hle
      · exact strLe_trans hle (hq x hx2)
    · rw [List.pairwise_cons]
      refine ⟨?_, ih hrest⟩
      intro x hx
      rcases mem_insPair hx with rfl | hx2
      · rcases strLe_total x.1 q.1 with ht | ht
        · exact absurd ht hle
        · exact ht
      · exact hq x hx2

theorem sortItems_perm (l : List (String × GccOpt)) : (sortItems l).Perm l := by
  induction l with
  | nil => exact List.Perm.refl _
  | cons x xs ih =>
    exact (insPair_perm x (sortItems xs)).trans (List.Perm.cons x ih)

theorem sortItems_pairwise (l : List (String × GccOpt)) :
    (sortItems l).Pairwise (fun x y => strLe x.1 y.1 = true) := by
  induction l with
  | nil => simp [sortItems]
  | cons x xs ih => exact pairwise_insPair ih

theorem mem_keys_setA {k x : String} {v : GccOpt} {l : OptMap}
    (h : x ∈ (setA k v l).map Prod.fst) : x = k ∨ x ∈ l.map Prod.fst := by
  induction l with
  | nil => simpa [setA] using h
  | cons q rest ih =>
    obtain ⟨k', v'⟩ := q
    simp only [setA] at h
    split_ifs at h with he
    · subst he
      simp only [List.map_cons, List.mem_cons] at h ⊢
      rcases h with h1 | h1
      · exact Or.inl h1
      · exact Or.inr (Or.inr h1)
    · simp only [List.map_cons, List.mem_cons] at h ⊢
      rcases h with h1 | h1
      · exact Or.inr (Or.inl h1)
      · rcases ih h1 with h2 | h2
        · exact Or.inl h2
        · exact Or.inr (Or.inr h2)

theorem nodupKeys_setA {k : String} {v : GccOpt} {l : OptMap}
    (h : (l.map Prod.fst).Nodup) : ((setA k v l).map Prod.fst).Nodup := by
  induction l with
  | nil => simp [setA]
  | cons q rest ih =>
    obtain ⟨k', v'⟩ := q
    simp only [setA]
    split_ifs with he
    · subst he
      simpa using h
    · simp only [List.map_cons, List.nodup_cons] at h ⊢
      refine ⟨?_, ih h.2⟩
      intro hmem
      rcases mem_keys_setA hmem with h1 | h1
      · exact he h1
      · exact h.1 h1

theorem add_gcc_o_ok_eq {value : String} {st st' : OptMap}
    (h : add_gcc_o value st = .ok st') : ∃ v, st' = setA "O" (GccOOption v) st := by
  unfold add_gcc_o at h
  cases hl : lookupA "O" st with
  | none =>
    rw [hl] at h
    simp only [Except.ok.injEq] at h
    exact ⟨[value], h.symm⟩
  | some o =>
    rw [hl] at h
    cases o <;> simp only [Except.ok.injEq] at h
    case GccOOption vs => exact ⟨vs ++ [value], h.symm⟩
    all_goals simp at h

theorem add_gcc_flag_enum_ok_eq {name : String} {values : List String} {st st' : OptMap}
    (h : add_gcc_flag_enum name values st = .ok st') :
    st' = setA name (GccFlagEnumOption name values) st := by
  unfold add_gcc_flag_enum at h
  cases hl : lookupA name st with
  | none =>
    rw [hl] at h
    simp only [Except.ok.injEq] at h
    exact h.symm
  | some o =>
    rw [hl] at h
    simp only [] at h
    cases ht : pyTruthy o with
    | error e =>
      rw [ht, except_bind_error] at h
      exact absurd h (by simp)
    | ok t =>
      rw [ht, except_bind_ok] at h
      cases t with
      | false =>
        simp only [Bool.false_eq_true, if_false, Except.ok.injEq] at h
        exact h.symm
      | true =>
        cases o <;> simp_all

theorem add_gcc_flag_int_ok_eq {name : String} {mn mx : Int} {st st' : OptMap}
    (h : add_gcc_flag_int name mn mx st = .ok st') :
    st' = setA name (GccFlagIntOption name mn mx) st := by
  unfold add_gcc_flag_int at h
  cases hl : lookupA name st with
  | none =>
    rw [hl] at h
    simp only [Except.ok.injEq] at h
    exact h.symm
  | some o =>
    rw [hl] at h
    simp only [] at h
    cases ht : pyTruthy o with
    | error e =>
      rw [ht, except_bind_error] at h
      exact absurd h (by simp)
    | ok t =>
      rw [ht, except_bind_ok] at h
      cases t with
      | false =>
        simp only [Bool.false_eq_true, if_false, Except.ok.injEq] at h
        exact h.symm
      | true =>
        cases o <;> simp_all

theorem add_gcc_flag_align_ok_eq {name : String} {st st' : OptMap}
    (h : add_gcc_flag_align name st = .ok st') :
    st' = setA name (GccFlagAlignOption name) st := by
  unfold add_gcc_flag_align at h
  cases hl : lookupA name st with
  | none =>
    rw [hl] at h
    simp only [Except.ok.injEq] at h
    exact h.symm
  | some o =>
    rw [hl] at h
    simp only [] at h
    cases ht : pyTruthy o with
    | error e =>
      rw [ht, except_bind_error] at h
      exact absurd h (by simp)
    | ok t =>
      rw [ht, except_bind_ok] at h
      cases t with
      | false =>
        simp only [Bool.false_eq_true, if_false, Except.ok.injEq] at h
        exact h.symm
      | true =>
        cases o <;> simp_all

theorem add_gcc_param_enum_ok_eq {name : String} {values : List String} {st st' : OptMap}
    (h : add_gcc_param_enum name values st = .ok st') :
    st' = setA name (GccParamEnumOption name values) st := by
  unfold add_gcc_param_enum at h
  cases hl : lookupA name st with
  | none =>
    rw [hl] at h
    simp only [Except.ok.injEq] at h
    exact h.symm
  | some o =>
    rw [hl] at h
    simp only [] at h
    cases ht : pyTruthy o with
    | error e =>
      rw [ht, except_bind_error] at h
      exact absurd h (by simp)
    | ok t =>
      rw [ht, except_bind_ok] at h
      cases t with
      | false =>
        simp only [Bool.false_eq_true, if_false, Except.ok.injEq] at h
        exact h.symm
      | true => simp at h

theorem add_gcc_param_int_ok_eq {name : String} {mn mx : Int} {st st' : OptMap}
    (h : add_gcc_param_int name mn mx st = .ok st') :
    st' = setA name (GccParamIntOption name mn mx) st := by
  unfold add_gcc_param_int at h
  cases hl : lookupA name st with
  | none =>
    rw [hl] at h
    simp only [Except.ok.injEq] at h
    exact h.symm
  | some o =>
    rw [hl] at h
    simp only [] at h
    cases ht : pyTruthy o with
    | error e =>
      rw [ht, except_bind_error] at h
      exact absurd h (by simp)
    | ok t =>
      rw [ht, except_bind_ok] at h
      cases t with
      | false =>
        simp only [Bool.false_eq_true, if_false, Except.ok.injEq] at h
        exact h.symm
      | true => simp at h

theorem nodup_add_gcc_flag {name : String} {st : OptMap}
    (hn : (st.map Prod.fst).Nodup) : ((add_gcc_flag name st).map Prod.fst).Nodup := by
  unfold add_gcc_flag
  cases lookupA name st with
  | some o => exact hn
  | none => exact nodupKeys_setA hn

theorem nodup_parse_line_optimize {line : String} {st st' : OptMap}
    (h : parse_line_optimize line st = .ok st')
    (hn : (st.map Prod.fst).Nodup) : (st'.map Prod.fst).Nodup := by
  unfold parse_line_optimize at h
  cases hb : pySplitWs line with
  | nil =>
    rw [hb] at h
    simp only [Except.ok.injEq] at h
    subst h
    exact hn
  | cons spec rest =>
    rw [hb] at h
    simp only [] at h
    by_cases hO : spec = "-O<number>"
    · rw [if_pos hO] at h
      cases h1 : add_gcc_o "0" st with
      | error e => rw [h1, except_bind_error] at h; exact absurd h (by simp)
      | ok o1 =>
        rw [h1, except_bind_ok] at h
        cases h2 : add_gcc_o "1" o1 with
        | error e => rw [h2, except_bind_error] at h; exact absurd h (by simp)
        | ok o2 =>
          rw [h2, except_bind_ok] at h
          cases h3 : add_gcc_o "2" o2 with
          | error e => rw [h3, except_bind_error] at h; exact absurd h (by simp)
          | ok o3 =>
            rw [h3, except_bind_ok] at h
            obtain ⟨v1, e1⟩ := add_gcc_o_ok_eq h1
            obtain ⟨v2, e2⟩ := add_gcc_o_ok_eq h2
            obtain ⟨v3, e3⟩ := add_gcc_o_ok_eq h3
            obtain ⟨v4, e4⟩ := add_gcc_o_ok_eq h
            subst e1; subst e2; subst e3; subst e4
            exact nodupKeys_setA (nodupKeys_setA (nodupKeys_setA (nodupKeys_setA hn)))
    · rw [if_neg hO] at h
      cases hm1 : O_fullmatch spec with
      | some suffix =>
        rw [hm1] at h
        simp only [] at h
        obtain ⟨v, e⟩ := add_gcc_o_ok_eq h
        subst e
        exact nodupKeys_setA hn
      | none =>
        rw [hm1] at h
        simp only [] at h
        cases hm2 : flag_align_eq_fullmatch spec with
        | some name =>
          rw [hm2] at h
          simp only [] at h
          rw [add_gcc_flag_align_ok_eq h]
          exact nodupKeys_setA hn
        | none =>
          rw [hm2] at h
          simp only [] at h
          cases hm3 : flag_fullmatch spec with
          | some name =>
            rw [hm3] at h
            simp only [Except.ok.injEq] at h
            subst h
            exact nodup_add_gcc_flag hn
          | none =>
            rw [hm3] at h
            simp only [] at h
            cases hm4 : flag_enum_fullmatch spec with
            | some nv =>
              obtain ⟨name, values⟩ := nv
              rw [hm4] at h
              simp only [] at h
              rw [add_gcc_flag_enum_ok_eq h]
              exact nodupKeys_setA hn
            | none =>
              rw [hm4] at h
              simp only [] at h
              cases hm5 : flag_interval_fullmatch spec with
              | some nmm =>
                obtain ⟨name, mn, mx⟩ := nmm
                rw [hm5] at h
                simp only [] at h
                rw [add_gcc_flag_int_ok_eq h]
                exact nodupKeys_setA hn
              | none =>
                rw [hm5] at h
                simp only [] at h
                cases hm6 : flag_number_fullmatch spec with
                | some name =>
                  rw [hm6] at h
                  simp only [] at h
                  rw [add_gcc_flag_int_ok_eq h]
                  exact nodupKeys_setA hn
                | none =>
                  rw [hm6] at h
                  simp only [Except.ok.injEq] at h
                  subst h
                  exact hn

theorem nodup_parse_line_params {line : String} {st st' : OptMap}
    (h : parse_line_params line st = .ok st')
    (hn : (st.map Prod.fst).Nodup) : (st'.map Prod.fst).Nodup := by
  unfold parse_line_params at h
  cases hb : pySplitWs line with
  | nil =>
    rw [hb] at h
    simp only [Except.ok.injEq] at h
    subst h
    exact hn
  | cons spec rest =>
    cases rest with
    | nil =>
      rw [hb] at h
      simp only [Except.ok.injEq] at h
      subst h
      exact hn
    | cons dflt rest2 =>
      rw [hb] at h
      simp only [] at h
      cases hm1 : param_enum_fullmatch spec with
      | some nv =>
        obtain ⟨name, values⟩ := nv
        rw [hm1] at h
        simp only [] at h
        split_ifs at h
        rw [add_gcc_param_enum_ok_eq h]
        exact nodupKeys_setA hn
      | none =>
        rw [hm1] at h
        simp only [] at h
        cases hm2 : param_interval_fullmatch spec with
        | some nmm =>
          obtain ⟨name, mn, mx⟩ := nmm
          rw [hm2] at h
          simp only [] at h
          by_cases hi : is_int dflt = true
          · rw [if_pos hi] at h
            by_cases hc : (decide (dflt ≠ "") &&
                !(decide (mn ≤ pyInt dflt) && decide (pyInt dflt ≤ mx))) = true
            · rw [if_pos hc] at h
              exact absurd h (by simp)
            · rw [if_neg hc] at h
              rw [add_gcc_param_int_ok_eq h]
              exact nodupKeys_setA hn
          · rw [if_neg hi] at h
            simp only [] at h
            cases hm3 : param_number_fullmatch spec with
            | some name =>
              rw [hm3] at h
              simp only [] at h
              rw [if_neg hi] at h
              simp only [] at h
              cases hm4 : param_old_interval_fullmatch line with
              | some nd =>
                obtain ⟨name2, d, mn2, mx2⟩ := nd
                rw [hm4] at h
                simp only [] at h
                split_ifs at h
                · rw [add_gcc_param_int_ok_eq h]
                  exact nodupKeys_setA hn
                · simp only [Except.ok.injEq] at h
                  subst h
                  exact hn
              | none =>
                rw [hm4] at h
                simp only [Except.ok.injEq] at h
                subst h
                exact hn
            | none =>
              rw [hm3] at h
              simp only [] at h
              cases hm4 : param_old_interval_fullmatch line with
              | some nd =>
                obtain ⟨name2, d, mn2, mx2⟩ := nd
                rw [hm4] at h
                simp only [] at h
                split_ifs at h
                · rw [add_gcc_param_int_ok_eq h]
                  exact nodupKeys_setA hn
                · simp only [Except.ok.injEq] at h
                  subst h
                  exact hn
              | none =>
                rw [hm4] at h
                simp only [Except.ok.injEq] at h
                subst h
                exact hn
        | none =>
          rw [hm2] at h
          simp only [] at h
          cases hm3 : param_number_fullmatch spec with
          | some name =>
            rw [hm3] at h
            simp only [] at h
            by_cases hi : is_int dflt = true
            · rw [if_pos hi] at h
              simp only [] at h
              rw [add_gcc_param_int_ok_eq h]
              exact nodupKeys_setA hn
            · rw [if_neg hi] at h
              simp only [] at h
              cases hm4 : param_old_interval_fullmatch line with
              | some nd =>
                obtain ⟨name2, d, mn2, mx2⟩ := nd
                rw [hm4] at h
                simp only [] at h
                split_ifs at h
                · rw [add_gcc_param_int_ok_eq h]
                  exact nodupKeys_setA hn
                · simp only [Except.ok.injEq] at h
                  subst h
                  exact hn
              | none =>
                rw [hm4] at h
                simp only [Except.ok.injEq] at h
                subst h
                exact hn
          | none =>
            rw [hm3] at h
            simp only [] at h
            cases hm4 : param_old_interval_fullmatch line with
            | some nd =>
              obtain ⟨name2, d, mn2, mx2⟩ := nd
              rw [hm4] at h
              simp only [] at h
              split_ifs at h
              · rw [add_gcc_param_int_ok_eq h]
                exact nodupKeys_setA hn
              · simp only [Except.ok.injEq] at h
                subst h
                exact hn
            | none =>
              rw [hm4] at h
              simp only [Except.ok.injEq] at h
              subst h
              exact hn

theorem nodup_fold_optimize (lines : List String) : ∀ st st' : OptMap,
    lines.foldlM (fun st line => parse_line_optimize (pyStrip line) st) st = .ok st' →
    (st.map Prod.fst).Nodup → (st'.map Prod.fst).Nodup := by
  induction lines with
  | nil =>
    intro st st' h hn
    rw [List.foldlM_nil] at h
    simp only [pure, Except.pure, Except.ok.injEq] at h
    subst h
    exact hn
  | cons x xs ih =>
    intro st st' h hn
    rw [List.foldlM_cons] at h
    cases hp : parse_line_optimize (pyStrip x) st with
    | error e => rw [hp, except_bind_error] at h; exact absurd h (by simp)
    | ok st1 =>
      rw [hp, except_bind_ok] at h
      exact ih st1 st' h (nodup_parse_line_optimize hp hn)

theorem nodup_fold_params (lines : List String) : ∀ st st' : OptMap,
    lines.foldlM (fun st line => parse_line_params (pyStrip line) st) st = .ok st' →
    (st.map Prod.fst).Nodup → (st'.map Prod.fst).Nodup := by
  induction lines with
  | nil =>
    intro st st' h hn
    rw [List.foldlM_nil] at h
    simp only [pure, Except.pure, Except.ok.injEq] at h
    subst h
    exact hn
  | cons x xs ih =>
    intro st st' h hn
    rw [List.foldlM_cons] at h
    cases hp : parse_line_params (pyStrip x) st with
    | error e => rw [hp, except_bind_error] at h; exact absurd h (by simp)
    | ok st1 =>
      rw [hp, except_bind_ok] at h
      exact ih st1 st' h (nodup_parse_line_params hp hn)

theorem gcc_parse_optimize_items_sorted {t : String} {l : List (String × GccOpt)}
    (h : gcc_parse_optimize_items t = .ok l) :
    l.Pairwise (fun p q => strLe p.1 q.1 = true ∧ p.1 ≠ q.1) := by
  unfold gcc_parse_optimize_items at h
  simp only [] at h
  cases hf : ((splitLines t).drop 1).foldlM
      (fun st line => parse_line_optimize (pyStrip line) st) ([] : OptMap) with
  | error e => rw [hf, except_bind_error] at h; exact absurd h (by simp)
  | ok stf =>
    rw [hf, except_bind_ok] at h
    simp only [Except.ok.injEq] at h
    subst h
    have hn : (stf.map Prod.fst).Nodup := nodup_fold_optimize _ _ _ hf (by simp)
    have hn2 : ((sortItems stf).map Prod.fst).Nodup :=
      (((sortItems_perm stf).map Prod.fst).nodup_iff).2 hn
    have hne : (sortItems stf).Pairwise (fun p q => p.1 ≠ q.1) :=
      (List.pairwise_map).1 hn2
    exact (sortItems_pairwise stf).and hne

theorem gcc_parse_params_items_sorted {t : String} {l : List (String × GccOpt)}
    (h : gcc_parse_params_items t = .ok l) :
    l.Pairwise (fun p q => strLe p.1 q.1 = true ∧ p.1 ≠ q.1) := by
  unfold gcc_parse_params_items at h
  simp only [] at h
  cases hf : ((splitLines t).drop 1).foldlM
      (fun st line => parse_line_params (pyStrip line) st) ([] : OptMap) with
  | error e => rw [hf, except_bind_error] at h; exact absurd h (by simp)
  | ok stf =>
    rw [hf, except_bind_ok] at h
    simp only [Except.ok.injEq] at h
    subst h
    have hn : (stf.map Prod.fst).Nodup := nodup_fold_params _ _ _ hf (by simp)
    have hn2 : ((sortItems stf).map Prod.fst).Nodup :=
      (((sortItems_perm stf).map Prod.fst).nodup_iff).2 hn
    have hne : (sortItems stf).Pairwise (fun p q => p.1 ≠ q.1) :=
      (List.pairwise_map).1 hn2
    exact (sortItems_pairwise stf).and hne

/-- C5 (amended): each of the two parsers returns its option map sorted
strictly by map key (so each parse result is name-sorted and deduplicated by
name within itself); the final option list of discovery is the fixed-up
concatenation of the two, which need not be sorted as a whole. -/
theorem claimC5_parser_lists_sorted :
    (∀ (t : String) (l : List (String × GccOpt)), gcc_parse_optimize_items t = .ok l →
      l.Pairwise (fun p q => strLe p.1 q.1 = true ∧ p.1 ≠ q.1)) ∧
    (∀ (t : String) (l : List (String × GccOpt)), gcc_parse_params_items t = .ok l →
      l.Pairwise (fun p q => strLe p.1 q.1 = true ∧ p.1 ≠ q.1)) :=
  ⟨fun _ _ h => gcc_parse_optimize_items_sorted h,
   fun _ _ h => gcc_parse_params_items_sorted h⟩

/-- C5 counterexample: a full discovery run whose final option list is not
sorted by option name — the optimize flag `zzz` precedes the parameter
`aaa`, because the two individually sorted lists are only concatenated. -/
theorem claimC5_counterexample :
    get_spec (.ok "gcc (GCC) 9\nx") "h\n-fzzz" "h\n--param=aaa= 0" none =
      .ok (some ⟨"gcc (GCC) 9",
            [GccFlagOption "zzz" false, GccParamIntOption "aaa" 0 2147483648]⟩,
          some ⟨"gcc (GCC) 9",
            [GccFlagOption "zzz" false, GccParamIntOption "aaa" 0 2147483648]⟩) ∧
    ¬ ([GccFlagOption "zzz" false, GccParamIntOption "aaa" 0 2147483648].Pairwise
        (fun a b => strLe (optionName a) (optionName b) = true)) := by
  constructor
  · decide
  · intro hp
    rw [List.pairwise_cons] at hp
    have := hp.1 (GccParamIntOption "aaa" 0 2147483648) (by simp)
    exact absurd this (by decide)

/-- C5 witness: the optimize parser applied to two flags given in reverse
order returns the key-sorted, duplicate-free item list. -/
theorem claimC5_witness :
    gcc_parse_optimize_items "h\n-fzz\n-faa" =
      .ok [("aa", GccFlagOption "aa" false), ("zz", GccFlagOption "zz" false)] ∧
    ([("aa", GccFlagOption "aa" false), ("zz", GccFlagOption "zz" false)].Pairwise
      (fun p q => strLe p.1 q.1 = true ∧ p.1 ≠ q.1)) :=
  ⟨by decide,
   claimC5_parser_lists_sorted.1 "h\n-fzz\n-faa"
     [("aa", GccFlagOption "aa" false), ("zz", GccFlagOption "zz" false)] (by decide)⟩
